import Mathlib

/-!
Verification of goexpert-client-server-api: exchange-rate server and client

A shallow embedding of `server/main.go` and `client/main.go`.

Conventions of the embedding

* Go strings and byte slices are modelled as `String` (Unicode text, i.e. the
  payloads that are valid UTF-8).
* An `error` value is modelled by the text `err.Error()` returns.
* Everything the program does not decide itself (the clock, the network, the
  disk, the SQL driver, the `http.ResponseWriter` it is handed) is an explicit
  `World` argument that answers each call made by the program.
* The standard-library functions the program calls (`context.WithTimeout`,
  `json.Unmarshal`, `json.Encoder.Encode`, `http.Error`, `os.Create`, ...) are
  modelled after their documented behaviour.
-/

set_option maxRecDepth 100000

/-- Text of a Go `error` value, as returned by `err.Error()`. -/
abbrev GoError := String

/-! ## `time` and `context` -/

/-- Instants, in nanoseconds. -/
abbrev Time := Int

/-- Model of `time.Duration`: a number of nanoseconds. -/
abbrev Duration := Int

/-- Model of `time.Millisecond`. -/
def Millisecond : Duration := 1000000

/-- Model of `context.Context`: the part the program configures, its deadline
(`none` when the context has no deadline). -/
structure Context where
  deadline : Option Time
deriving DecidableEq, Repr

/-- Model of `context.Background()`. -/
def Background : Context := { deadline := none }

/-- Model of `context.WithDeadline`: when the parent's deadline is already
before `d` the parent's deadline stays, otherwise the deadline is `d`. -/
def WithDeadline (parent : Context) (d : Time) : Context :=
  match parent.deadline with
  | some cur => if cur < d then parent else { deadline := some d }
  | none => { deadline := some d }

/-- Model of `context.WithTimeout(parent, timeout)`, which is
`WithDeadline(parent, time.Now().Add(timeout))`; `now` is the clock reading. -/
def WithTimeout (parent : Context) (now : Time) (timeout : Duration) : Context :=
  WithDeadline parent (now + timeout)

/-- The earlier of an inherited deadline, if there is one, and a deadline of
one's own. -/
def earlier (inherited : Option Time) (own : Time) : Time :=
  match inherited with
  | none => own
  | some d => min d own

/-! ## `encoding/json` -/

namespace json

/-- The double quote character. -/
def quote : Char := Char.ofNat 34

/-- The backslash character. -/
def backslash : Char := Char.ofNat 92

/-- The opening brace. -/
def lbrace : Char := Char.ofNat 123

/-- The closing brace. -/
def rbrace : Char := Char.ofNat 125

/-- Lower-case hexadecimal digit, as in the encoder's `hex` table. -/
def hexDigit (n : Nat) : Char :=
  if n < 10 then Char.ofNat (48 + n) else Char.ofNat (87 + n)

/-- One character of a string as `appendString` writes it with HTML escaping
on (the default of `json.Encoder`). -/
def escapeChar (c : Char) : List Char :=
  let n := c.toNat
  if n = 34 ∨ n = 92 then [backslash, c]
  else if n = 8 then [backslash, 'b']
  else if n = 12 then [backslash, 'f']
  else if n = 10 then [backslash, 'n']
  else if n = 13 then [backslash, 'r']
  else if n = 9 then [backslash, 't']
  else if n < 32 ∨ n = 60 ∨ n = 62 ∨ n = 38 then
    [backslash, 'u', '0', '0', hexDigit (n / 16), hexDigit (n % 16)]
  else if n = 8232 ∨ n = 8233 then
    [backslash, 'u', '2', '0', '2', hexDigit (n % 16)]
  else [c]

/-- JSON encoding of a Go string (`appendString`): the escaped characters
between two double quotes. -/
def encodeString (s : String) : String :=
  String.mk (quote :: (s.data.flatMap escapeChar ++ [quote]))

/-- What `json.NewEncoder(w).Encode(s)` hands to `w.Write` for a string `s`:
the JSON encoding followed by a newline character. -/
def Encode (s : String) : String :=
  encodeString s ++ "\n"

/-- JSON values, as far as the decoder tells them apart. -/
inductive Value where
  | null
  | bool (b : Bool)
  | number (lit : String)
  | string (s : String)
  | array (elems : List Value)
  | object (members : List (String × Value))

/-- The scanner's `isSpace`. -/
def isSpace (c : Char) : Bool :=
  c.toNat = 32 || c.toNat = 9 || c.toNat = 13 || c.toNat = 10

/-- Drop leading JSON white space. -/
def skipSpace : List Char → List Char
  | [] => []
  | c :: cs => if isSpace c then skipSpace cs else c :: cs

/-- Value of a hexadecimal digit. -/
def hexVal (c : Char) : Option Nat :=
  let n := c.toNat
  if 48 ≤ n ∧ n ≤ 57 then some (n - 48)
  else if 97 ≤ n ∧ n ≤ 102 then some (n - 87)
  else if 65 ≤ n ∧ n ≤ 70 then some (n - 55)
  else none

/-- Model of `getu4`: the code unit of a `\uXXXX` escape at the front of the
input. -/
def getu4 : List Char → Option Nat
  | e :: u :: a :: b :: c :: d :: _ =>
    if e = backslash ∧ u = 'u' then
      match hexVal a, hexVal b, hexVal c, hexVal d with
      | some a, some b, some c, some d => some (((a * 16 + b) * 16 + c) * 16 + d)
      | _, _, _, _ => none
    else none
  | _ => none

/-- The Unicode replacement character U+FFFD. -/
def replacementChar : Char := Char.ofNat 65533

/-- The character of a one-letter escape. -/
def simpleEscape (c : Char) : Option Char :=
  if c = quote then some quote
  else if c = backslash then some backslash
  else if c = '/' then some '/'
  else if c = 'b' then some (Char.ofNat 8)
  else if c = 'f' then some (Char.ofNat 12)
  else if c = 'n' then some (Char.ofNat 10)
  else if c = 'r' then some (Char.ofNat 13)
  else if c = 't' then some (Char.ofNat 9)
  else none

/-- Scan a string literal after its opening quote and unquote it: returns the
decoded string and the input after the closing quote. -/
def scanString : Nat → List Char → List Char → Option (String × List Char)
  | 0, _, _ => none
  | fuel + 1, cs, acc =>
    match cs with
    | [] => none
    | c :: rest =>
      if c = quote then some (String.mk acc, rest)
      else if c = backslash then
        match rest with
        | [] => none
        | e :: rest2 =>
          if e = 'u' then
            match getu4 cs with
            | none => none
            | some rr =>
              let after := rest2.drop 4
              if 55296 ≤ rr ∧ rr < 57344 then
                match getu4 after with
                | some rr1 =>
                  if rr < 56320 ∧ 56320 ≤ rr1 ∧ rr1 < 57344 then
                    scanString fuel (after.drop 6)
                      (acc ++ [Char.ofNat ((rr - 55296) * 1024 + (rr1 - 56320) + 65536)])
                  else scanString fuel after (acc ++ [replacementChar])
                | none => scanString fuel after (acc ++ [replacementChar])
              else scanString fuel after (acc ++ [Char.ofNat rr])
          else
            match simpleEscape e with
            | some ch => scanString fuel rest2 (acc ++ [ch])
            | none => none
      else if c.toNat < 32 then none
      else scanString fuel rest (acc ++ [c])

/-- Is the character a decimal digit. -/
def isDigit (c : Char) : Bool :=
  decide (48 ≤ c.toNat) && decide (c.toNat ≤ 57)

/-- Split off the leading decimal digits. -/
def spanDigits : List Char → List Char × List Char
  | [] => ([], [])
  | c :: cs =>
    if isDigit c then ((spanDigits cs).1.cons c, (spanDigits cs).2) else ([], c :: cs)

/-- Scan the exponent part of a number, if there is one. -/
def scanExponent (cs : List Char) : Option (List Char × List Char) :=
  match cs with
  | [] => some ([], [])
  | c :: rest =>
    if c = 'e' ∨ c = 'E' then
      match rest with
      | [] => none
      | s :: rest2 =>
        if s = '+' ∨ s = '-' then
          (if (spanDigits rest2).1 = [] then none
           else some (c :: s :: (spanDigits rest2).1, (spanDigits rest2).2))
        else
          (if (spanDigits rest).1 = [] then none
           else some (c :: (spanDigits rest).1, (spanDigits rest).2))
    else some ([], cs)

/-- Scan the fraction part of a number, if there is one. -/
def scanFraction (cs : List Char) : Option (List Char × List Char) :=
  match cs with
  | [] => some ([], [])
  | c :: rest =>
    if c = '.' then
      (if (spanDigits rest).1 = [] then none
       else some (c :: (spanDigits rest).1, (spanDigits rest).2))
    else some ([], cs)

/-- Scan the integer part of a number: a single `0`, or a non-zero digit
followed by digits. -/
def scanInteger (cs : List Char) : Option (List Char × List Char) :=
  match cs with
  | [] => none
  | c :: rest =>
    if c = '0' then some ([c], rest)
    else if isDigit c then some (c :: (spanDigits rest).1, (spanDigits rest).2)
    else none

/-- Scan a number literal. -/
def scanNumber (cs : List Char) : Option (String × List Char) :=
  let signed : List Char × List Char :=
    match cs with
    | [] => ([], [])
    | c :: rest => if c = '-' then ([c], rest) else ([], cs)
  match scanInteger signed.2 with
  | none => none
  | some (i, r1) =>
    match scanFraction r1 with
    | none => none
    | some (f, r2) =>
      match scanExponent r2 with
      | none => none
      | some (e, r3) => some (String.mk (signed.1 ++ i ++ f ++ e), r3)

/-- The scanner's `maxNestingDepth`. -/
def maxNestingDepth : Nat := 10000

/-- If the input starts with the given word, the input after it. -/
def dropWord : List Char → List Char → Option (List Char)
  | [], cs => some cs
  | _ :: _, [] => none
  | w :: ws, c :: cs => if w = c then dropWord ws cs else none

mutual

/-- Parse one JSON value at the front of the input (no leading white space);
`depth` is the number of enclosing arrays and objects. -/
def parseValue : Nat → Nat → List Char → Option (Value × List Char)
  | 0, _, _ => none
  | fuel + 1, depth, cs =>
    match cs with
    | [] => none
    | c :: rest =>
      if c = lbrace then
        if depth + 1 ≤ maxNestingDepth then
          match skipSpace rest with
          | [] => none
          | d :: rest2 =>
            if d = rbrace then some (Value.object [], rest2)
            else parseMembers fuel (depth + 1) (d :: rest2) []
        else none
      else if c = '[' then
        if depth + 1 ≤ maxNestingDepth then
          match skipSpace rest with
          | [] => none
          | d :: rest2 =>
            if d = ']' then some (Value.array [], rest2)
            else parseElements fuel (depth + 1) (d :: rest2) []
        else none
      else if c = quote then
        match scanString (rest.length + 1) rest [] with
        | some (s, r) => some (Value.string s, r)
        | none => none
      else if c = 't' then (dropWord "true".data cs).map (fun r => (Value.bool true, r))
      else if c = 'f' then (dropWord "false".data cs).map (fun r => (Value.bool false, r))
      else if c = 'n' then (dropWord "null".data cs).map (fun r => (Value.null, r))
      else
        match scanNumber cs with
        | some (lit, r) => some (Value.number lit, r)
        | none => none

/-- Parse the members of an object after the opening brace, up to and
including the closing brace. -/
def parseMembers : Nat → Nat → List Char → List (String × Value) →
    Option (Value × List Char)
  | 0, _, _, _ => none
  | fuel + 1, depth, cs, acc =>
    match cs with
    | [] => none
    | c :: rest =>
      if c = quote then
        match scanString (rest.length + 1) rest [] with
        | none => none
        | some (key, r1) =>
          match skipSpace r1 with
          | [] => none
          | colon :: r2 =>
            if colon = ':' then
              match parseValue fuel depth (skipSpace r2) with
              | none => none
              | some (v, r3) =>
                match skipSpace r3 with
                | [] => none
                | sep :: r4 =>
                  if sep = ',' then parseMembers fuel depth (skipSpace r4) (acc ++ [(key, v)])
                  else if sep = rbrace then some (Value.object (acc ++ [(key, v)]), r4)
                  else none
            else none
      else none

/-- Parse the elements of an array after the opening bracket, up to and
including the closing bracket. -/
def parseElements : Nat → Nat → List Char → List Value → Option (Value × List Char)
  | 0, _, _, _ => none
  | fuel + 1, depth, cs, acc =>
    match parseValue fuel depth cs with
    | none => none
    | some (v, r1) =>
      match skipSpace r1 with
      | [] => none
      | sep :: r2 =>
        if sep = ',' then parseElements fuel depth (skipSpace r2) (acc ++ [v])
        else if sep = ']' then some (Value.array (acc ++ [v]), r2)
        else none

end

/-- Parse a whole document: one value surrounded by optional white space.
`none` is a syntax error. -/
def parse (data : String) : Option Value :=
  match parseValue (data.length + 1) 0 (skipSpace data.data) with
  | none => none
  | some (v, rest) => if skipSpace rest = [] then some v else none

end json

/-! ## `server/main.go` -/

namespace Server

/-- The constant `exchangeRateApiUrl`. -/
def exchangeRateApiUrl : String := "https://economia.awesomeapi.com.br/json/last/USD-BRL"

/-- The constant `exchangeRateApiRequestTimeoutDuration`, 200 ms. -/
def exchangeRateApiRequestTimeoutDuration : Duration := 200 * Millisecond

/-- The constant `exchangeRateDBTransactionTimeoutDuration`, 10 ms. -/
def exchangeRateDBTransactionTimeoutDuration : Duration := 10 * Millisecond

/-- The anonymous struct type of the field `USDBRL`. -/
structure USDBRL where
  Code : String
  Codein : String
  Name : String
  High : String
  Low : String
  VarBid : String
  PctChange : String
  Bid : String
  Ask : String
  Timestamp : String
  CreateDate : String
deriving DecidableEq, Repr

/-- The type `ExchangeRateApiResponse`. -/
structure ExchangeRateApiResponse where
  USDBRL : USDBRL
deriving DecidableEq, Repr

/-- The zero value of `ExchangeRateApiResponse` (`var e ExchangeRateApiResponse`). -/
def ExchangeRateApiResponse.zero : ExchangeRateApiResponse :=
  { USDBRL := { Code := "", Codein := "", Name := "", High := "", Low := "", VarBid := "",
                PctChange := "", Bid := "", Ask := "", Timestamp := "", CreateDate := "" } }

/-- Case folding of one character of an object key, as the decoder matches keys
with field names: ASCII letters fold to upper case, and so do the two
non-ASCII characters whose simple case folding is an ASCII letter (U+017F and
U+212A). -/
def foldChar (c : Char) : Char :=
  let n := c.toNat
  if 97 ≤ n ∧ n ≤ 122 then Char.ofNat (n - 32)
  else if n = 383 then 'S'
  else if n = 8490 then 'K'
  else c

/-- Folded form of an object key. -/
def foldName (s : String) : String :=
  String.mk (s.data.map foldChar)

/-- Decoding a JSON value into a Go `string` that currently holds `old`: a
JSON string is stored, `null` leaves the field alone, anything else is an
`UnmarshalTypeError`. -/
def decodeString (v : json.Value) (old : String) : Option String :=
  match v with
  | json.Value.string s => some s
  | json.Value.null => some old
  | _ => none

/-- Decoding one member of the inner object into the struct, by the `json`
tags of its fields; a key that matches no field is skipped. -/
def setField (e : USDBRL) (key : String) (v : json.Value) : Option USDBRL :=
  let k := foldName key
  if k = "CODE" then (decodeString v e.Code).map (fun s => { e with Code := s })
  else if k = "CODEIN" then (decodeString v e.Codein).map (fun s => { e with Codein := s })
  else if k = "NAME" then (decodeString v e.Name).map (fun s => { e with Name := s })
  else if k = "HIGH" then (decodeString v e.High).map (fun s => { e with High := s })
  else if k = "LOW" then (decodeString v e.Low).map (fun s => { e with Low := s })
  else if k = "VARBID" then (decodeString v e.VarBid).map (fun s => { e with VarBid := s })
  else if k = "PCTCHANGE" then
    (decodeString v e.PctChange).map (fun s => { e with PctChange := s })
  else if k = "BID" then (decodeString v e.Bid).map (fun s => { e with Bid := s })
  else if k = "ASK" then (decodeString v e.Ask).map (fun s => { e with Ask := s })
  else if k = "TIMESTAMP" then
    (decodeString v e.Timestamp).map (fun s => { e with Timestamp := s })
  else if k = "CREATE_DATE" then
    (decodeString v e.CreateDate).map (fun s => { e with CreateDate := s })
  else some e

/-- Decoding the members of the inner object, in order. -/
def setFields : USDBRL → List (String × json.Value) → Option USDBRL
  | e, [] => some e
  | e, (k, v) :: rest =>
    match setField e k v with
    | some e1 => setFields e1 rest
    | none => none

/-- Decoding one member of the outer object: the key `USDBRL` takes an object
(or `null`, which changes nothing); other keys are skipped. -/
def setMember (e : ExchangeRateApiResponse) (key : String) (v : json.Value) :
    Option ExchangeRateApiResponse :=
  if foldName key = "USDBRL" then
    match v with
    | json.Value.object members =>
      (setFields e.USDBRL members).map (fun u => { USDBRL := u })
    | json.Value.null => some e
    | _ => none
  else some e

/-- Decoding the members of the outer object, in order. -/
def setMembers : ExchangeRateApiResponse → List (String × json.Value) →
    Option ExchangeRateApiResponse
  | e, [] => some e
  | e, (k, v) :: rest =>
    match setMember e k v with
    | some e1 => setMembers e1 rest
    | none => none

/-- Model of `json.Unmarshal(body, &e)` for a zero `e`: `none` when it returns
an error (a syntax error, or a value of the wrong JSON type for its target). -/
def Unmarshal (body : String) : Option ExchangeRateApiResponse :=
  match json.parse body with
  | none => none
  | some (json.Value.object members) => setMembers ExchangeRateApiResponse.zero members
  | some json.Value.null => some ExchangeRateApiResponse.zero
  | some _ => none

/-- The part of `http.Response` the program uses: the status code and the
outcome of `io.ReadAll(resp.Body)`. -/
structure Response where
  StatusCode : Nat
  Body : Except GoError String

/-- A value stored in a column. -/
inductive SqlValue where
  | null
  | integer (n : Int)
  | text (s : String)
deriving DecidableEq, Repr

/-- A column definition of a `CREATE TABLE` statement, with the constraint
kinds the program's schema uses. -/
structure ColumnDef where
  name : String
  decltype : String
  primaryKeyAutoincrement : Bool
  notNull : Bool
  defaultCurrentTimestamp : Bool
deriving DecidableEq, Repr

/-- A table: its definition, its rows (one value per column, in column order)
and the largest row id handed out so far (the `sqlite_sequence` entry). -/
structure Table where
  columns : List ColumnDef
  rows : List (List SqlValue)
  sequence : Nat
deriving DecidableEq, Repr

/-- The database file: the table `exchanges`, when it exists. -/
structure Store where
  exchanges : Option Table
deriving DecidableEq, Repr

/-- A `NOT NULL` column of the given declared type, without a default. -/
def required (name : String) (decltype : String) : ColumnDef :=
  { name := name, decltype := decltype,
    primaryKeyAutoincrement := false, notNull := true, defaultCurrentTimestamp := false }

/-- The columns of the constant `createDatabase`. -/
def createDatabase : List ColumnDef :=
  [ { name := "id", decltype := "INTEGER", primaryKeyAutoincrement := true,
      notNull := false, defaultCurrentTimestamp := false },
    required "code" "VARCHAR(3)",
    required "codein" "VARCHAR(3)",
    required "name" "VARCHAR(100)",
    required "high" "VARCHAR(10)",
    required "low" "VARCHAR(10)",
    required "varBid" "VARCHAR(10)",
    required "pctChange" "VARCHAR(10)",
    required "bid" "VARCHAR(10)",
    required "ask" "VARCHAR(10)",
    { name := "create_date", decltype := "TIMESTAMP", primaryKeyAutoincrement := false,
      notNull := true, defaultCurrentTimestamp := true } ]

/-- Effect of `CREATE TABLE IF NOT EXISTS exchanges (...)`: nothing when the
table exists, an empty table with the given columns otherwise. -/
def createTableIfNotExists (columns : List ColumnDef) (db : Store) : Store :=
  match db.exchanges with
  | some _ => db
  | none => { exchanges := some { columns := columns, rows := [], sequence := 0 } }

/-- The column list of the `INSERT INTO exchanges(...) values(?,?,?,?,?,?,?,?,?)`
statement, in the order of its nine placeholders. -/
def insertColumns : List String :=
  ["code", "codein", "name", "high", "low", "varBid", "pctChange", "bid", "ask"]

/-- ASCII lower case of a character. -/
def lowerChar (c : Char) : Char :=
  if 65 ≤ c.toNat ∧ c.toNat ≤ 90 then Char.ofNat (c.toNat + 32) else c

/-- Column names are compared without regard to ASCII case. -/
def sameColumn (a b : String) : Bool :=
  a.data.map lowerChar == b.data.map lowerChar

/-- The value bound to a column by an insert, when the column is listed. -/
def boundValue : List (String × String) → String → Option String
  | [], _ => none
  | (k, v) :: rest, name => if sameColumn k name then some v else boundValue rest name

/-- The value an insert stores in a column: the bound text when the column is
listed; otherwise the next row id for the auto-increment key, the current
timestamp for a column that defaults to it, and `NULL` for any other.
Covers the program's own schema: a bound text is kept as text (no conversion
by column affinity) and the next row id is taken from the sequence alone. -/
def columnValue (t : Table) (bound : List (String × String)) (timestamp : String)
    (c : ColumnDef) : SqlValue :=
  match boundValue bound c.name with
  | some s => SqlValue.text s
  | none =>
    if c.primaryKeyAutoincrement then SqlValue.integer (t.sequence + 1)
    else if c.defaultCurrentTimestamp then SqlValue.text timestamp
    else SqlValue.null

/-- The row an insert builds. -/
def newRow (t : Table) (bound : List (String × String)) (timestamp : String) :
    List SqlValue :=
  t.columns.map (columnValue t bound timestamp)

/-- The first `NOT NULL` column of the table that the row leaves `NULL`. -/
def nullViolation : List ColumnDef → List SqlValue → Option String
  | c :: cs, v :: vs =>
    if c.notNull && v == SqlValue.null then some c.name else nullViolation cs vs
  | _, _ => none

/-- Compiling the insert statement: the table and every listed column must
exist. -/
def prepareInsert (db : Store) (columns : List String) : Except GoError Table :=
  match db.exchanges with
  | none => Except.error "no such table: exchanges"
  | some t =>
    match columns.find? (fun c => !(t.columns.any (fun d => sameColumn d.name c))) with
    | some c => Except.error ("table exchanges has no column named " ++ c)
    | none => Except.ok t

/-- Running the compiled insert with its arguments: one row is appended, or
the statement fails and the table is as before. -/
def execInsert (t : Table) (columns : List String) (args : List String)
    (timestamp : String) : Except GoError Table :=
  if 9223372036854775807 ≤ t.sequence ∧ t.columns.any (fun c => c.primaryKeyAutoincrement) then
    Except.error "database or disk is full"
  else
    match nullViolation t.columns (newRow t (columns.zip args) timestamp) with
    | some c => Except.error ("NOT NULL constraint failed: exchanges." ++ c)
    | none =>
      Except.ok { t with rows := t.rows ++ [newRow t (columns.zip args) timestamp],
                         sequence := t.sequence + 1 }

/-- The calls the server makes on the outside world that carry a context. -/
inductive Call where
  | httpDo (ctx : Context) (method : String) (url : String)
  | prepareContext (ctx : Context) (columns : List String)
  | execContext (ctx : Context) (args : List String)
deriving DecidableEq, Repr

/-- The answers of the outside world to the server. -/
structure World where
  /-- The clock when `GetExchangeRate` derives its context. -/
  nowFetch : Time
  /-- The error of `http.NewRequestWithContext`, if any. -/
  newRequest : Option GoError
  /-- The outcome of `http.DefaultClient.Do` under the given context. -/
  roundTrip : Context → Except GoError Response
  /-- The text of the error `json.Unmarshal` returns for a body it rejects. -/
  unmarshalError : String → GoError
  /-- The clock when `SaveExchangeRateInDatabase` derives its context. -/
  nowPersist : Time
  /-- A failure of the driver in `PrepareContext` (disk, lock, expired context). -/
  prepare : Context → Option GoError
  /-- A failure of the driver in `ExecContext` (disk, lock, expired context). -/
  exec : Context → Option GoError
  /-- The value of `CURRENT_TIMESTAMP` when the insert runs. -/
  currentTimestamp : String
  /-- The error of the n-th `Write` on the response writer, if any. -/
  write : Nat → Option GoError
  /-- The error of `sql.Open`, if any. -/
  sqlOpen : Option GoError
  /-- A failure of the driver in `db.Exec(createDatabase)`. -/
  execSchema : Option GoError

/-- Model of `GetExchangeRate`: the result and the calls made. -/
def GetExchangeRate (w : World) (ctx : Context) :
    Except GoError ExchangeRateApiResponse × List Call :=
  let ctx := WithTimeout ctx w.nowFetch exchangeRateApiRequestTimeoutDuration
  match w.newRequest with
  | some err => (Except.error err, [])
  | none =>
    match w.roundTrip ctx with
    | Except.error err => (Except.error err, [Call.httpDo ctx "GET" exchangeRateApiUrl])
    | Except.ok resp =>
      match resp.Body with
      | Except.error err => (Except.error err, [Call.httpDo ctx "GET" exchangeRateApiUrl])
      | Except.ok body =>
        match Unmarshal body with
        | none =>
          (Except.error (w.unmarshalError body), [Call.httpDo ctx "GET" exchangeRateApiUrl])
        | some e => (Except.ok e, [Call.httpDo ctx "GET" exchangeRateApiUrl])

/-- Model of `DatabaseFactory`: the database with the table in place, or the
error. -/
def DatabaseFactory (w : World) (db : Store) : Except GoError Store :=
  match w.sqlOpen with
  | some err => Except.error err
  | none =>
    match w.execSchema with
    | some err => Except.error err
    | none => Except.ok (createTableIfNotExists createDatabase db)

/-- The nine arguments `SaveExchangeRateInDatabase` passes to
`stmt.ExecContext`, in order. -/
def insertArgs (exchangeRate : ExchangeRateApiResponse) : List String :=
  [exchangeRate.USDBRL.Code, exchangeRate.USDBRL.Codein, exchangeRate.USDBRL.Name,
    exchangeRate.USDBRL.High, exchangeRate.USDBRL.Low, exchangeRate.USDBRL.VarBid,
    exchangeRate.USDBRL.PctChange, exchangeRate.USDBRL.Bid, exchangeRate.USDBRL.Ask]

/-- Model of `SaveExchangeRateInDatabase`: the error if any, the database
afterwards and the calls made. -/
def SaveExchangeRateInDatabase (w : World) (ctx : Context) (db : Store)
    (exchangeRate : ExchangeRateApiResponse) : Option GoError × Store × List Call :=
  let ctx := WithTimeout ctx w.nowPersist exchangeRateDBTransactionTimeoutDuration
  let args := insertArgs exchangeRate
  match w.prepare ctx with
  | some err => (some err, db, [Call.prepareContext ctx insertColumns])
  | none =>
    match prepareInsert db insertColumns with
    | Except.error err => (some err, db, [Call.prepareContext ctx insertColumns])
    | Except.ok t =>
      match w.exec ctx with
      | some err =>
        (some err, db, [Call.prepareContext ctx insertColumns, Call.execContext ctx args])
      | none =>
        match execInsert t insertColumns args w.currentTimestamp with
        | Except.error err =>
          (some err, db, [Call.prepareContext ctx insertColumns, Call.execContext ctx args])
        | Except.ok t1 =>
          (none, { exchanges := some t1 },
            [Call.prepareContext ctx insertColumns, Call.execContext ctx args])

/-- Model of an `http.ResponseWriter`: the status once the header is written,
the body written so far, and the number of `Write` calls received. -/
structure ResponseWriter where
  status : Option Nat
  body : String
  writes : Nat
deriving DecidableEq, Repr

/-- A response writer nothing has been written to. -/
def ResponseWriter.fresh : ResponseWriter := { status := none, body := "", writes := 0 }

/-- Model of `WriteHeader`: only the first header written counts. -/
def ResponseWriter.WriteHeader (rw : ResponseWriter) (code : Nat) : ResponseWriter :=
  match rw.status with
  | some _ => rw
  | none => { rw with status := some code }

/-- Model of `Write`: the header is written with status 200 if none was
written yet; then the data is appended, unless the world fails this write. -/
def ResponseWriter.Write (w : World) (rw : ResponseWriter) (data : String) :
    ResponseWriter × Option GoError :=
  let rw1 := rw.WriteHeader 200
  match w.write rw.writes with
  | some err => ({ rw1 with writes := rw.writes + 1 }, some err)
  | none => ({ rw1 with body := rw1.body ++ data, writes := rw.writes + 1 }, none)

/-- The constant `http.StatusInternalServerError`. -/
def StatusInternalServerError : Nat := 500

/-- Model of `http.Error(w, error, code)`: writes the header with the code,
then the text followed by a newline (`fmt.Fprintln`); a failure of that write
is ignored. -/
def Error (w : World) (rw : ResponseWriter) (error : String) (code : Nat) : ResponseWriter :=
  (ResponseWriter.Write w (rw.WriteHeader code) (error ++ "\n")).1

/-- What one run of the handler leaves behind. -/
structure Handled where
  db : Store
  rw : ResponseWriter
  calls : List Call

/-- Model of the function `ExchangeHandler(db)` returns, run on a request
whose context is `ctx`. -/
def ExchangeHandler (w : World) (db : Store) (rw : ResponseWriter) (ctx : Context) : Handled :=
  match GetExchangeRate w ctx with
  | (Except.error err, calls) =>
    { db := db, rw := Error w rw err StatusInternalServerError, calls := calls }
  | (Except.ok exchangeRate, calls) =>
    match SaveExchangeRateInDatabase w ctx db exchangeRate with
    | (some err, db1, calls1) =>
      { db := db1, rw := Error w rw err StatusInternalServerError, calls := calls ++ calls1 }
    | (none, db1, calls1) =>
      match ResponseWriter.Write w rw (json.Encode exchangeRate.USDBRL.Bid) with
      | (rw1, some err) =>
        { db := db1, rw := Error w rw1 err StatusInternalServerError, calls := calls ++ calls1 }
      | (rw1, none) => { db := db1, rw := rw1, calls := calls ++ calls1 }

end Server

/-! ## `client/main.go` -/

namespace Client

/-- The constant `internalExchangeRateApiUrl`. -/
def internalExchangeRateApiUrl : String := "http://localhost:8080/cotacao"

/-- The constant `internalExchangeRateApiUrlTimeoutDuration`, 300 ms. -/
def internalExchangeRateApiUrlTimeoutDuration : Duration := 300 * Millisecond

/-- The file `exchangeRateFilePath`: its content, `none` when it does not
exist. -/
structure FileSystem where
  cotacao : Option String
deriving DecidableEq, Repr

/-- The calls the client makes on the outside world. -/
inductive Call where
  | httpDo (ctx : Context) (method : String) (url : String)
  | create
  | writeString (s : String)
deriving DecidableEq, Repr

/-- The answers of the outside world to the client. -/
structure World where
  /-- The clock when `GetExchangeRateValue` derives its context. -/
  now : Time
  /-- The error of `http.NewRequestWithContext`, if any. -/
  newRequest : Option GoError
  /-- The outcome of `http.DefaultClient.Do` under the given context. -/
  roundTrip : Context → Except GoError Server.Response
  /-- The error of `os.Create`, if any. -/
  create : Option GoError
  /-- The error of `file.WriteString`, if any. -/
  writeString : Option GoError

/-- Model of `WriteExchangeRate`: the error if any, the file afterwards and
the calls made. `os.Create` creates the file or truncates it; the string is
then written into the empty file. -/
def WriteExchangeRate (w : World) (fs : FileSystem) (value : String) :
    Option GoError × FileSystem × List Call :=
  match w.create with
  | some err => (some err, fs, [Call.create])
  | none =>
    match w.writeString with
    | some err => (some err, { cotacao := some "" }, [Call.create, Call.writeString ("Dólar: " ++ value)])
    | none =>
      (none, { cotacao := some ("Dólar: " ++ value) },
        [Call.create, Call.writeString ("Dólar: " ++ value)])

/-- Model of `GetExchangeRateValue`: the result and the calls made. -/
def GetExchangeRateValue (w : World) : Except GoError String × List Call :=
  let ctx := WithTimeout Background w.now internalExchangeRateApiUrlTimeoutDuration
  match w.newRequest with
  | some err => (Except.error err, [])
  | none =>
    match w.roundTrip ctx with
    | Except.error err =>
      (Except.error err, [Call.httpDo ctx "GET" internalExchangeRateApiUrl])
    | Except.ok resp =>
      match resp.Body with
      | Except.error err =>
        (Except.error err, [Call.httpDo ctx "GET" internalExchangeRateApiUrl])
      | Except.ok body => (Except.ok body, [Call.httpDo ctx "GET" internalExchangeRateApiUrl])

/-- How one run of the client ends. -/
structure Exit where
  /-- The value of the `panic` that ended the process, if any. -/
  panicked : Option GoError
  fs : FileSystem
  calls : List Call
deriving DecidableEq, Repr

/-- Model of the client's `main`. -/
def main (w : World) (fs : FileSystem) : Exit :=
  match GetExchangeRateValue w with
  | (Except.error err, calls) => { panicked := some err, fs := fs, calls := calls }
  | (Except.ok value, calls) =>
    match WriteExchangeRate w fs value with
    | (some err, fs1, calls1) => { panicked := some err, fs := fs1, calls := calls ++ calls1 }
    | (none, fs1, calls1) => { panicked := none, fs := fs1, calls := calls ++ calls1 }

/-- The response the client receives when the server's handler has written to
`rw` and the whole body arrives. -/
def received (rw : Server.ResponseWriter) : Server.Response :=
  { StatusCode := rw.status.getD 200, Body := Except.ok rw.body }

end Client

/-! ## Worlds and inputs used in examples -/

namespace Server

/-- A provider payload with the bid 5.43. -/
def payload543 : String :=
  "\x7b\"USDBRL\":\x7b\"code\":\"USD\",\"codein\":\"BRL\",\"name\":\"Dólar Americano/Real Brasileiro\",\"high\":\"5.45\",\"low\":\"5.40\",\"varBid\":\"0.01\",\"pctChange\":\"0.2\",\"bid\":\"5.43\",\"ask\":\"5.44\",\"timestamp\":\"1700000000\",\"create_date\":\"2023-11-14 19:13:20\"\x7d\x7d"

/-- The observation `payload543` parses to. -/
def observation543 : ExchangeRateApiResponse :=
  { USDBRL := { Code := "USD", Codein := "BRL", Name := "Dólar Americano/Real Brasileiro",
                High := "5.45", Low := "5.40", VarBid := "0.01", PctChange := "0.2",
                Bid := "5.43", Ask := "5.44", Timestamp := "1700000000",
                CreateDate := "2023-11-14 19:13:20" } }

/-- A provider payload with the bid 5.50 and no other field. -/
def payload550 : String := "\x7b\"USDBRL\":\x7b\"bid\":\"5.50\"\x7d\x7d"

/-- The observation `payload550` parses to. -/
def observation550 : ExchangeRateApiResponse :=
  { USDBRL := { ExchangeRateApiResponse.zero.USDBRL with Bid := "5.50" } }

/-- A world in which the provider answers 200 with the given body and nothing
fails. -/
def calmWorld (body : String) : World :=
  { nowFetch := 0, newRequest := none,
    roundTrip := fun _ => Except.ok { StatusCode := 200, Body := Except.ok body },
    unmarshalError := fun _ => "invalid character", nowPersist := 0,
    prepare := fun _ => none, exec := fun _ => none,
    currentTimestamp := "2023-11-14 19:13:21", write := fun _ => none,
    sqlOpen := none, execSchema := none }

/-- The database right after the schema step ran on an empty file. -/
def emptyDb : Store := createTableIfNotExists createDatabase { exchanges := none }

/-- The number of rows in the store. -/
def rowCount (db : Store) : Nat :=
  match db.exchanges with
  | none => 0
  | some t => t.rows.length

/-- The value a row holds in the named column of the table. -/
def columnOf : List ColumnDef → List SqlValue → String → Option SqlValue
  | c :: cs, v :: vs, name => if c.name = name then some v else columnOf cs vs name
  | _, _, _ => none

/-- A world in which the call to the provider fails with the given error. -/
def unreachableWorld (err : GoError) : World :=
  { calmWorld "" with roundTrip := fun _ => Except.error err }

/-- A world in which everything succeeds except writing to the response
writer. -/
def brokenPipeWorld : World :=
  { calmWorld payload543 with write := fun _ => some "write: broken pipe" }

/-- A world in which nothing fails, the fetch starts at time 0 and the persist
step starts 195 ms later. -/
def slowProviderWorld : World :=
  { calmWorld payload543 with nowPersist := 195 * Millisecond }

/-- The keys the decoder matches against the fields of the struct when it
decodes one member of the outer object: the keys of an object bound to a key
that matches `USDBRL`. -/
def memberKeys (key : String) (v : json.Value) : List String :=
  if foldName key = "USDBRL" then
    match v with
    | json.Value.object members => members.map (fun p => p.1)
    | _ => []
  else []

/-- The keys the decoder matches against the fields of the struct, over all
members of the outer object. -/
def decodedKeys : List (String × json.Value) → List String
  | [] => []
  | (k, v) :: rest => memberKeys k v ++ decodedKeys rest

/-- Does the body hold a key for the field with the given `json` tag. -/
def mentions (body : String) (tag : String) : Bool :=
  match json.parse body with
  | some (json.Value.object members) =>
    (decodedKeys members).any (fun k => foldName k == foldName tag)
  | _ => false

/-- A provider payload that leaves out name, high, low, varBid and pctChange. -/
def payloadPartial : String :=
  "\x7b\"USDBRL\":\x7b\"code\":\"USD\",\"codein\":\"BRL\",\"bid\":\"5.43\",\"ask\":\"5.44\"\x7d\x7d"

/-- The observation `payloadPartial` parses to. -/
def observationPartial : ExchangeRateApiResponse :=
  { USDBRL := { ExchangeRateApiResponse.zero.USDBRL with
      Code := "USD", Codein := "BRL", Bid := "5.43", Ask := "5.44" } }

/-- The table after the observation with bid 5.43 was saved into the empty
table. -/
def seededTable : Table :=
  { columns := createDatabase,
    rows := [[SqlValue.integer 1, SqlValue.text "USD", SqlValue.text "BRL",
              SqlValue.text "Dólar Americano/Real Brasileiro", SqlValue.text "5.45",
              SqlValue.text "5.40", SqlValue.text "0.01", SqlValue.text "0.2",
              SqlValue.text "5.43", SqlValue.text "5.44",
              SqlValue.text "2023-11-14 19:13:21"]],
    sequence := 1 }

/-- A world that starts the fetch at time 0 and the persist step at 195 ms,
and in which the provider and the driver fail every call that is not made
under the deadline 200 ms, respectively 205 ms. -/
def deadlineProbeWorld : World :=
  { calmWorld payload543 with
    nowPersist := 195 * Millisecond,
    roundTrip := fun c =>
      if c.deadline = some 200000000 then
        Except.ok { StatusCode := 200, Body := Except.ok payload543 }
      else Except.error "provider called under another deadline",
    prepare := fun c =>
      if c.deadline = some 205000000 then none else some "prepared under another deadline",
    exec := fun c =>
      if c.deadline = some 205000000 then none else some "run under another deadline" }

/-- A store that holds the table with one persisted row. -/
def seededDb : Store :=
  (ExchangeHandler (calmWorld payload543) emptyDb ResponseWriter.fresh Background).db

end Server

namespace Client

/-- A client world in which the request fails with the given error and the
file operations would succeed. -/
def unreachableServer (err : GoError) : World :=
  { now := 0, newRequest := none, roundTrip := fun _ => Except.error err,
    create := none, writeString := none }

/-- A client world in which the server answers with what its handler wrote to
`rw` and the file operations succeed. -/
def againstServer (rw : Server.ResponseWriter) : World :=
  { now := 0, newRequest := none, roundTrip := fun _ => Except.ok (received rw),
    create := none, writeString := none }

end Client

/-! ## Properties -/

namespace Server

/-- The handler when `GetExchangeRate` returns an error. -/
theorem handler_of_fetch_error (w : World) (db : Store) (rw : ResponseWriter) (ctx : Context)
    (err : GoError) (h : (GetExchangeRate w ctx).1 = Except.error err) :
    ExchangeHandler w db rw ctx =
      { db := db, rw := Error w rw err StatusInternalServerError,
        calls := (GetExchangeRate w ctx).2 } := by
  unfold ExchangeHandler
  rcases hg : GetExchangeRate w ctx with ⟨r, calls⟩
  rw [hg] at h
  simp only at h
  subst h
  rfl

/-- The handler when `SaveExchangeRateInDatabase` returns an error. -/
theorem handler_of_save_error (w : World) (db : Store) (rw : ResponseWriter) (ctx : Context)
    (e : ExchangeRateApiResponse) (err : GoError)
    (h : (GetExchangeRate w ctx).1 = Except.ok e)
    (hs : (SaveExchangeRateInDatabase w ctx db e).1 = some err) :
    ExchangeHandler w db rw ctx =
      { db := (SaveExchangeRateInDatabase w ctx db e).2.1,
        rw := Error w rw err StatusInternalServerError,
        calls := (GetExchangeRate w ctx).2 ++ (SaveExchangeRateInDatabase w ctx db e).2.2 } := by
  unfold ExchangeHandler
  rcases hg : GetExchangeRate w ctx with ⟨r, calls⟩
  rw [hg] at h
  simp only at h
  subst h
  dsimp only
  rcases hv : SaveExchangeRateInDatabase w ctx db e with ⟨r1, db1, calls1⟩
  rw [hv] at hs
  simp only at hs
  subst hs
  rfl

/-- The handler when fetch and persist succeed. -/
theorem handler_of_saved (w : World) (db : Store) (rw : ResponseWriter) (ctx : Context)
    (e : ExchangeRateApiResponse)
    (h : (GetExchangeRate w ctx).1 = Except.ok e)
    (hs : (SaveExchangeRateInDatabase w ctx db e).1 = none) :
    ExchangeHandler w db rw ctx =
      { db := (SaveExchangeRateInDatabase w ctx db e).2.1,
        rw := match ResponseWriter.Write w rw (json.Encode e.USDBRL.Bid) with
          | (rw1, some err) => Error w rw1 err StatusInternalServerError
          | (rw1, none) => rw1,
        calls := (GetExchangeRate w ctx).2 ++ (SaveExchangeRateInDatabase w ctx db e).2.2 } := by
  unfold ExchangeHandler
  rcases hg : GetExchangeRate w ctx with ⟨r, calls⟩
  rw [hg] at h
  simp only at h
  subst h
  dsimp only
  rcases hv : SaveExchangeRateInDatabase w ctx db e with ⟨r1, db1, calls1⟩
  rw [hv] at hs
  simp only at hs
  subst hs
  dsimp only
  rcases hw : ResponseWriter.Write w rw (json.Encode e.USDBRL.Bid) with ⟨rw1, r2⟩
  cases r2 <;> rfl

/-- A failed `SaveExchangeRateInDatabase` leaves the database as it was. -/
theorem save_error_db (w : World) (ctx : Context) (db : Store) (e : ExchangeRateApiResponse)
    (err : GoError) (hs : (SaveExchangeRateInDatabase w ctx db e).1 = some err) :
    (SaveExchangeRateInDatabase w ctx db e).2.1 = db := by
  revert hs
  unfold SaveExchangeRateInDatabase
  dsimp only
  rcases w.prepare (WithTimeout ctx w.nowPersist exchangeRateDBTransactionTimeoutDuration)
    with _ | e1
  · dsimp only
    rcases prepareInsert db insertColumns with e2 | t
    · simp
    · dsimp only
      rcases w.exec (WithTimeout ctx w.nowPersist exchangeRateDBTransactionTimeoutDuration)
        with _ | e3
      · dsimp only
        rcases execInsert t insertColumns (insertArgs e) w.currentTimestamp with e4 | t1
        · simp
        · simp
      · simp
  · simp

/-- A successful `prepareInsert` returns the existing table. -/
theorem prepareInsert_ok (db : Store) (columns : List String) (t : Table)
    (h : prepareInsert db columns = Except.ok t) : db.exchanges = some t := by
  unfold prepareInsert at h
  rcases hd : db.exchanges with _ | t0
  · rw [hd] at h
    simp at h
  · rw [hd] at h
    dsimp only at h
    split at h
    · simp at h
    · simp only [Except.ok.injEq] at h
      rw [h]

/-- A successful `execInsert` appends the new row and nothing else. -/
theorem execInsert_ok (t t1 : Table) (columns args : List String) (timestamp : String)
    (h : execInsert t columns args timestamp = Except.ok t1) :
    t1 = { t with rows := t.rows ++ [newRow t (columns.zip args) timestamp],
                  sequence := t.sequence + 1 } := by
  unfold execInsert at h
  split at h
  · simp at h
  · split at h
    · simp at h
    · simp only [Except.ok.injEq] at h
      exact h.symm

/-- A successful `SaveExchangeRateInDatabase` ran the insert on the existing
table. -/
theorem save_ok_db (w : World) (ctx : Context) (db : Store) (e : ExchangeRateApiResponse)
    (hs : (SaveExchangeRateInDatabase w ctx db e).1 = none) :
    ∃ t, db.exchanges = some t ∧
      (SaveExchangeRateInDatabase w ctx db e).2.1 =
        { exchanges := some { t with
            rows := t.rows ++ [newRow t (insertColumns.zip (insertArgs e)) w.currentTimestamp],
            sequence := t.sequence + 1 } } := by
  revert hs
  unfold SaveExchangeRateInDatabase
  dsimp only
  rcases w.prepare (WithTimeout ctx w.nowPersist exchangeRateDBTransactionTimeoutDuration)
    with _ | e1
  · dsimp only
    rcases h2 : prepareInsert db insertColumns with e2 | t
    · simp
    · dsimp only
      rcases w.exec (WithTimeout ctx w.nowPersist exchangeRateDBTransactionTimeoutDuration)
        with _ | e3
      · dsimp only
        rcases h4 : execInsert t insertColumns (insertArgs e) w.currentTimestamp with e4 | t1
        · simp
        · intro _
          refine ⟨t, prepareInsert_ok db insertColumns t h2, ?_⟩
          rw [execInsert_ok t t1 _ _ _ h4]
      · simp
  · simp


/-- The response written by `http.Error` on a fresh response writer. -/
theorem error_on_fresh (w : World) (err : GoError) :
    (Error w ResponseWriter.fresh err StatusInternalServerError).status = some 500 ∧
    (w.write 0 = none →
      (Error w ResponseWriter.fresh err StatusInternalServerError).body = err ++ "\n") := by
  unfold Error ResponseWriter.Write ResponseWriter.WriteHeader ResponseWriter.fresh
    StatusInternalServerError
  dsimp only
  rcases w.write 0 with _ | e1
  · simp
  · simp

/-- A body that does not parse makes `GetExchangeRate` return the decoder's
error. -/
theorem fetch_of_parse_error (w : World) (ctx : Context) (resp : Response) (payload : String)
    (hreq : w.newRequest = none)
    (hdo : w.roundTrip (WithTimeout ctx w.nowFetch exchangeRateApiRequestTimeoutDuration) =
      Except.ok resp)
    (hbody : resp.Body = Except.ok payload) (hparse : Unmarshal payload = none) :
    (GetExchangeRate w ctx).1 = Except.error (w.unmarshalError payload) := by
  unfold GetExchangeRate
  simp only [hreq, hdo, hbody, hparse]

/-- The response of the handler when fetch, persist and the write of the
response succeed. -/
theorem handler_success_response (w : World) (db : Store) (ctx : Context)
    (e : ExchangeRateApiResponse)
    (hfetch : (GetExchangeRate w ctx).1 = Except.ok e)
    (hsave : (SaveExchangeRateInDatabase w ctx db e).1 = none)
    (hwrite : w.write 0 = none) :
    (ExchangeHandler w db ResponseWriter.fresh ctx).rw.status = some 200 ∧
    (ExchangeHandler w db ResponseWriter.fresh ctx).rw.body =
      json.encodeString e.USDBRL.Bid ++ "\n" := by
  rw [handler_of_saved w db ResponseWriter.fresh ctx e hfetch hsave]
  simp [ResponseWriter.Write, ResponseWriter.WriteHeader, ResponseWriter.fresh, hwrite,
    json.Encode]

/-- The response of the handler when the fetch, the parse or the persist step
fails and the write of the response goes through. -/
theorem handler_error_response (w : World) (db : Store) (ctx : Context) (err : GoError)
    (hfail : (GetExchangeRate w ctx).1 = Except.error err ∨
      ∃ e, (GetExchangeRate w ctx).1 = Except.ok e ∧
        (SaveExchangeRateInDatabase w ctx db e).1 = some err)
    (hwrite : w.write 0 = none) :
    (ExchangeHandler w db ResponseWriter.fresh ctx).rw.status = some 500 ∧
    (ExchangeHandler w db ResponseWriter.fresh ctx).rw.body = err ++ "\n" := by
  rcases hfail with h | ⟨e, h, hs⟩
  · rw [handler_of_fetch_error w db ResponseWriter.fresh ctx err h]
    exact ⟨(error_on_fresh w err).1, (error_on_fresh w err).2 hwrite⟩
  · rw [handler_of_save_error w db ResponseWriter.fresh ctx e err h hs]
    exact ⟨(error_on_fresh w err).1, (error_on_fresh w err).2 hwrite⟩

/-- C1, counterexample: for the provider payload whose bid is 5.43, with fetch
and persist succeeding, the handler answers 200 but the body is not the six
characters of the JSON string: it is those followed by a newline. -/
theorem C1_counterexample_trailing_newline :
    (GetExchangeRate (calmWorld payload543) Background).1 = Except.ok observation543 ∧
    observation543.USDBRL.Bid = "5.43" ∧
    (SaveExchangeRateInDatabase (calmWorld payload543) Background emptyDb observation543).1
      = none ∧
    (ExchangeHandler (calmWorld payload543) emptyDb ResponseWriter.fresh Background).rw.status
      = some 200 ∧
    json.encodeString "5.43" = "\"5.43\"" ∧
    (ExchangeHandler (calmWorld payload543) emptyDb ResponseWriter.fresh Background).rw.body
      ≠ json.encodeString "5.43" ∧
    (ExchangeHandler (calmWorld payload543) emptyDb ResponseWriter.fresh Background).rw.body
      = "\"5.43\"\n" := by
  refine ⟨by rfl, by decide, by decide, by decide, by decide, by decide, by decide⟩

/-- C1, amended: when fetch and persist succeed with an observation and the
write of the response succeeds, the handler responds with status 200 and a
body that is exactly the JSON string encoding of the bid followed by one
newline. -/
theorem C1_success_response (w : World) (db : Store) (ctx : Context)
    (e : ExchangeRateApiResponse)
    (hfetch : (GetExchangeRate w ctx).1 = Except.ok e)
    (hsave : (SaveExchangeRateInDatabase w ctx db e).1 = none)
    (hwrite : w.write 0 = none) :
    (ExchangeHandler w db ResponseWriter.fresh ctx).rw.status = some 200 ∧
    (ExchangeHandler w db ResponseWriter.fresh ctx).rw.body =
      json.encodeString e.USDBRL.Bid ++ "\n" :=
  handler_success_response w db ctx e hfetch hsave hwrite

/-- C1, amended, at the payload with bid 5.43. -/
theorem C1_success_response_witness :
    (GetExchangeRate (calmWorld payload543) Background).1 = Except.ok observation543 ∧
    (SaveExchangeRateInDatabase (calmWorld payload543) Background emptyDb observation543).1
      = none ∧
    (calmWorld payload543).write 0 = none ∧
    (ExchangeHandler (calmWorld payload543) emptyDb ResponseWriter.fresh Background).rw.status
      = some 200 ∧
    (ExchangeHandler (calmWorld payload543) emptyDb ResponseWriter.fresh Background).rw.body
      = json.encodeString observation543.USDBRL.Bid ++ "\n" :=
  ⟨by rfl, by decide, by rfl,
    C1_success_response (calmWorld payload543) emptyDb Background observation543
      (by rfl) (by decide) (by rfl)⟩

/-- C3, counterexample: when the fetch step fails with the error text
`context deadline exceeded`, the status is 500 but the body is not that text:
it is the text followed by a newline. -/
theorem C3_counterexample_body_newline :
    (GetExchangeRate (unreachableWorld "context deadline exceeded") Background).1
      = Except.error "context deadline exceeded" ∧
    (ExchangeHandler (unreachableWorld "context deadline exceeded") emptyDb
      ResponseWriter.fresh Background).rw.status = some 500 ∧
    (ExchangeHandler (unreachableWorld "context deadline exceeded") emptyDb
      ResponseWriter.fresh Background).rw.body ≠ "context deadline exceeded" ∧
    (ExchangeHandler (unreachableWorld "context deadline exceeded") emptyDb
      ResponseWriter.fresh Background).rw.body = "context deadline exceeded\n" := by
  refine ⟨by rfl, by decide, by decide, by decide⟩

/-- C3, amended: whenever the fetch step, the parse step or the persist step
fails, the handler responds with status 500, and the body it writes is the
error text followed by a newline; the status is 200 only when fetch, parse
and persist all succeeded. Every failure gives the same status 500. -/
theorem C3_error_responses (w : World) (db : Store) (ctx : Context) :
    (∀ err, (GetExchangeRate w ctx).1 = Except.error err →
      (ExchangeHandler w db ResponseWriter.fresh ctx).rw.status = some 500 ∧
      (w.write 0 = none →
        (ExchangeHandler w db ResponseWriter.fresh ctx).rw.body = err ++ "\n")) ∧
    (∀ resp payload, w.newRequest = none →
      w.roundTrip (WithTimeout ctx w.nowFetch (200 * Millisecond)) = Except.ok resp →
      resp.Body = Except.ok payload → Unmarshal payload = none →
      (ExchangeHandler w db ResponseWriter.fresh ctx).rw.status = some 500 ∧
      (w.write 0 = none →
        (ExchangeHandler w db ResponseWriter.fresh ctx).rw.body
          = w.unmarshalError payload ++ "\n")) ∧
    (∀ e err, (GetExchangeRate w ctx).1 = Except.ok e →
      (SaveExchangeRateInDatabase w ctx db e).1 = some err →
      (ExchangeHandler w db ResponseWriter.fresh ctx).rw.status = some 500 ∧
      (w.write 0 = none →
        (ExchangeHandler w db ResponseWriter.fresh ctx).rw.body = err ++ "\n")) ∧
    ((ExchangeHandler w db ResponseWriter.fresh ctx).rw.status = some 200 →
      ∃ e, (GetExchangeRate w ctx).1 = Except.ok e ∧
        (SaveExchangeRateInDatabase w ctx db e).1 = none) := by
  have hA : ∀ err, (GetExchangeRate w ctx).1 = Except.error err →
      (ExchangeHandler w db ResponseWriter.fresh ctx).rw.status = some 500 ∧
      (w.write 0 = none →
        (ExchangeHandler w db ResponseWriter.fresh ctx).rw.body = err ++ "\n") := by
    intro err h
    rw [handler_of_fetch_error w db ResponseWriter.fresh ctx err h]
    exact error_on_fresh w err
  have hB : ∀ e err, (GetExchangeRate w ctx).1 = Except.ok e →
      (SaveExchangeRateInDatabase w ctx db e).1 = some err →
      (ExchangeHandler w db ResponseWriter.fresh ctx).rw.status = some 500 ∧
      (w.write 0 = none →
        (ExchangeHandler w db ResponseWriter.fresh ctx).rw.body = err ++ "\n") := by
    intro e err h hs
    rw [handler_of_save_error w db ResponseWriter.fresh ctx e err h hs]
    exact error_on_fresh w err
  refine ⟨hA, ?_, hB, ?_⟩
  · intro resp payload hreq hdo hbody hparse
    exact hA _ (fetch_of_parse_error w ctx resp payload hreq hdo hbody hparse)
  · intro h200
    rcases hg : (GetExchangeRate w ctx).1 with err | e
    · rw [(hA err hg).1] at h200
      simp at h200
    · rcases hs : (SaveExchangeRateInDatabase w ctx db e).1 with _ | err
      · exact ⟨e, rfl, hs⟩
      · rw [(hB e err hg hs).1] at h200
        simp at h200

/-- C3, amended, at a fetch that fails by timeout. -/
theorem C3_error_responses_witness :
    (ExchangeHandler (unreachableWorld "context deadline exceeded") emptyDb
      ResponseWriter.fresh Background).rw.status = some 500 ∧
    ((unreachableWorld "context deadline exceeded").write 0 = none →
      (ExchangeHandler (unreachableWorld "context deadline exceeded") emptyDb
        ResponseWriter.fresh Background).rw.body = "context deadline exceeded" ++ "\n") :=
  (C3_error_responses (unreachableWorld "context deadline exceeded") emptyDb Background).1
    "context deadline exceeded" (by rfl)


/-- The row the program's insert builds in a table with the program's schema. -/
theorem newRow_createDatabase (t : Table) (hcols : t.columns = createDatabase)
    (e : ExchangeRateApiResponse) (timestamp : String) :
    newRow t (insertColumns.zip (insertArgs e)) timestamp =
      [SqlValue.integer (t.sequence + 1), SqlValue.text e.USDBRL.Code,
       SqlValue.text e.USDBRL.Codein, SqlValue.text e.USDBRL.Name,
       SqlValue.text e.USDBRL.High, SqlValue.text e.USDBRL.Low,
       SqlValue.text e.USDBRL.VarBid, SqlValue.text e.USDBRL.PctChange,
       SqlValue.text e.USDBRL.Bid, SqlValue.text e.USDBRL.Ask, SqlValue.text timestamp] := by
  unfold newRow
  rw [hcols]
  rfl

/-- C4, counterexample: when fetch, parse and persist succeed and writing the
response fails, the request has failed but the store is not unchanged: the
row has been appended. -/
theorem C4_counterexample_write_failure :
    (GetExchangeRate brokenPipeWorld Background).1 = Except.ok observation543 ∧
    (SaveExchangeRateInDatabase brokenPipeWorld Background emptyDb observation543).1 = none ∧
    (ResponseWriter.Write brokenPipeWorld ResponseWriter.fresh
      (json.Encode observation543.USDBRL.Bid)).2 = some "write: broken pipe" ∧
    (ExchangeHandler brokenPipeWorld emptyDb ResponseWriter.fresh Background).rw.body = "" ∧
    rowCount emptyDb = 0 ∧
    rowCount (ExchangeHandler brokenPipeWorld emptyDb ResponseWriter.fresh Background).db = 1 ∧
    (ExchangeHandler brokenPipeWorld emptyDb ResponseWriter.fresh Background).db ≠ emptyDb := by
  refine ⟨by rfl, by decide, by decide, by decide, by decide, by decide, by decide⟩

/-- C4, amended: one run of the handler leaves the store unchanged when the
fetch, the parse or the persist step fails, appends exactly one row when
fetch, parse and persist succeed (whether or not writing the response then
succeeds), and never appends more than one row. -/
theorem C4_rows_per_request (w : World) (db : Store) (rw : ResponseWriter) (ctx : Context) :
    (∀ err, (GetExchangeRate w ctx).1 = Except.error err →
      (ExchangeHandler w db rw ctx).db = db) ∧
    (∀ e err, (GetExchangeRate w ctx).1 = Except.ok e →
      (SaveExchangeRateInDatabase w ctx db e).1 = some err →
      (ExchangeHandler w db rw ctx).db = db) ∧
    (∀ e, (GetExchangeRate w ctx).1 = Except.ok e →
      (SaveExchangeRateInDatabase w ctx db e).1 = none →
      ∃ t t1 row, db.exchanges = some t ∧
        (ExchangeHandler w db rw ctx).db.exchanges = some t1 ∧
        t1.columns = t.columns ∧ t1.rows = t.rows ++ [row]) ∧
    rowCount (ExchangeHandler w db rw ctx).db ≤ rowCount db + 1 := by
  have hA : ∀ err, (GetExchangeRate w ctx).1 = Except.error err →
      (ExchangeHandler w db rw ctx).db = db := by
    intro err h
    rw [handler_of_fetch_error w db rw ctx err h]
  have hB : ∀ e err, (GetExchangeRate w ctx).1 = Except.ok e →
      (SaveExchangeRateInDatabase w ctx db e).1 = some err →
      (ExchangeHandler w db rw ctx).db = db := by
    intro e err h hs
    rw [handler_of_save_error w db rw ctx e err h hs]
    exact save_error_db w ctx db e err hs
  have hC : ∀ e, (GetExchangeRate w ctx).1 = Except.ok e →
      (SaveExchangeRateInDatabase w ctx db e).1 = none →
      ∃ t t1 row, db.exchanges = some t ∧
        (ExchangeHandler w db rw ctx).db.exchanges = some t1 ∧
        t1.columns = t.columns ∧ t1.rows = t.rows ++ [row] := by
    intro e h hs
    rw [handler_of_saved w db rw ctx e h hs]
    obtain ⟨t, ht, hdb⟩ := save_ok_db w ctx db e hs
    refine ⟨t, { t with
        rows := t.rows ++ [newRow t (insertColumns.zip (insertArgs e)) w.currentTimestamp],
        sequence := t.sequence + 1 },
      newRow t (insertColumns.zip (insertArgs e)) w.currentTimestamp, ht, ?_, rfl, rfl⟩
    dsimp only
    rw [hdb]
  refine ⟨hA, hB, hC, ?_⟩
  rcases hg : (GetExchangeRate w ctx).1 with err | e
  · rw [hA err hg]
    exact Nat.le_succ _
  · rcases hs : (SaveExchangeRateInDatabase w ctx db e).1 with _ | err
    · obtain ⟨t, t1, row, ht, ht1, _, hrows⟩ := hC e hg hs
      unfold rowCount
      rw [ht, ht1]
      simp [hrows]
    · rw [hB e err hg hs]
      exact Nat.le_succ _

/-- C4, amended, at a run in which everything succeeds. -/
theorem C4_rows_per_request_witness :
    ∃ t t1 row, emptyDb.exchanges = some t ∧
      (ExchangeHandler (calmWorld payload543) emptyDb ResponseWriter.fresh
        Background).db.exchanges = some t1 ∧
      t1.columns = t.columns ∧ t1.rows = t.rows ++ [row] :=
  (C4_rows_per_request (calmWorld payload543) emptyDb ResponseWriter.fresh Background).2.2.1
    observation543 (by rfl) (by decide)

/-- C5: in a table with the program's schema, the row that
`SaveExchangeRateInDatabase` inserts holds in the columns code, codein, name,
high, low, varBid, pctChange, bid and ask the parsed fields Code, Codein,
Name, High, Low, VarBid, PctChange, Bid and Ask unchanged; the nine arguments
are bound to the nine named columns in the same order; and no value is
supplied for id or create_date, which take the next row id and the current
timestamp. -/
theorem C5_row_equals_parsed_fields (w : World) (ctx : Context) (db : Store) (t : Table)
    (e : ExchangeRateApiResponse)
    (hdb : db.exchanges = some t) (hcols : t.columns = createDatabase)
    (hs : (SaveExchangeRateInDatabase w ctx db e).1 = none) :
    ∃ t1 row, (SaveExchangeRateInDatabase w ctx db e).2.1.exchanges = some t1 ∧
      t1.rows = t.rows ++ [row] ∧
      columnOf t1.columns row "code" = some (SqlValue.text e.USDBRL.Code) ∧
      columnOf t1.columns row "codein" = some (SqlValue.text e.USDBRL.Codein) ∧
      columnOf t1.columns row "name" = some (SqlValue.text e.USDBRL.Name) ∧
      columnOf t1.columns row "high" = some (SqlValue.text e.USDBRL.High) ∧
      columnOf t1.columns row "low" = some (SqlValue.text e.USDBRL.Low) ∧
      columnOf t1.columns row "varBid" = some (SqlValue.text e.USDBRL.VarBid) ∧
      columnOf t1.columns row "pctChange" = some (SqlValue.text e.USDBRL.PctChange) ∧
      columnOf t1.columns row "bid" = some (SqlValue.text e.USDBRL.Bid) ∧
      columnOf t1.columns row "ask" = some (SqlValue.text e.USDBRL.Ask) ∧
      columnOf t1.columns row "id" = some (SqlValue.integer (t.sequence + 1)) ∧
      columnOf t1.columns row "create_date" = some (SqlValue.text w.currentTimestamp) ∧
      insertColumns.zip (insertArgs e) =
        [("code", e.USDBRL.Code), ("codein", e.USDBRL.Codein), ("name", e.USDBRL.Name),
         ("high", e.USDBRL.High), ("low", e.USDBRL.Low), ("varBid", e.USDBRL.VarBid),
         ("pctChange", e.USDBRL.PctChange), ("bid", e.USDBRL.Bid), ("ask", e.USDBRL.Ask)] ∧
      boundValue (insertColumns.zip (insertArgs e)) "id" = none ∧
      boundValue (insertColumns.zip (insertArgs e)) "create_date" = none := by
  obtain ⟨t0, ht0, hsave⟩ := save_ok_db w ctx db e hs
  rw [hdb] at ht0
  cases ht0
  rw [hsave]
  refine ⟨_, _, rfl, rfl, ?_⟩
  dsimp only
  rw [newRow_createDatabase t hcols e w.currentTimestamp, hcols]
  exact ⟨rfl, rfl, rfl, rfl, rfl, rfl, rfl, rfl, rfl, rfl, rfl, rfl, rfl, rfl⟩

/-- C5 at the observation with bid 5.43, saved into the empty table. -/
theorem C5_row_equals_parsed_fields_witness :
    emptyDb.exchanges = some { columns := createDatabase, rows := [], sequence := 0 } ∧
    (SaveExchangeRateInDatabase (calmWorld payload543) Background emptyDb observation543).1
      = none ∧
    ∃ t1 row, (SaveExchangeRateInDatabase (calmWorld payload543) Background emptyDb
        observation543).2.1.exchanges = some t1 ∧
      t1.rows = [] ++ [row] ∧
      columnOf t1.columns row "code" = some (SqlValue.text "USD") ∧
      columnOf t1.columns row "bid" = some (SqlValue.text "5.43") :=
  ⟨by rfl, by decide, by
    obtain ⟨t1, row, h1, h2, h3, _, _, _, _, _, _, h10, _⟩ :=
      C5_row_equals_parsed_fields (calmWorld payload543) Background emptyDb
        { columns := createDatabase, rows := [], sequence := 0 } observation543
        (by rfl) (by rfl) (by decide)
    exact ⟨t1, row, h1, h2, h3, h10⟩⟩

/-- C7, counterexample: `GetExchangeRate` accepts the provider body that is an
empty JSON object, and the row the handler then persists holds the empty
string in all nine string fields. -/
theorem C7_counterexample_empty_fields :
    (GetExchangeRate (calmWorld "\x7b\x7d") Background).1
      = Except.ok ExchangeRateApiResponse.zero ∧
    (ExchangeHandler (calmWorld "\x7b\x7d") emptyDb ResponseWriter.fresh
      Background).db.exchanges.map (fun t => t.rows) =
      some [[SqlValue.integer 1, SqlValue.text "", SqlValue.text "", SqlValue.text "",
             SqlValue.text "", SqlValue.text "", SqlValue.text "", SqlValue.text "",
             SqlValue.text "", SqlValue.text "", SqlValue.text "2023-11-14 19:13:21"]] := by
  refine ⟨by rfl, by decide⟩

/-- One decoded member leaves alone every field whose tag its key does not
match. -/
theorem setField_keeps (e e1 : USDBRL) (k : String) (v : json.Value)
    (h : setField e k v = some e1) :
    (foldName k ≠ "CODE" → e1.Code = e.Code) ∧
    (foldName k ≠ "CODEIN" → e1.Codein = e.Codein) ∧
    (foldName k ≠ "NAME" → e1.Name = e.Name) ∧
    (foldName k ≠ "HIGH" → e1.High = e.High) ∧
    (foldName k ≠ "LOW" → e1.Low = e.Low) ∧
    (foldName k ≠ "VARBID" → e1.VarBid = e.VarBid) ∧
    (foldName k ≠ "PCTCHANGE" → e1.PctChange = e.PctChange) ∧
    (foldName k ≠ "BID" → e1.Bid = e.Bid) ∧
    (foldName k ≠ "ASK" → e1.Ask = e.Ask) := by
  unfold setField at h
  dsimp only at h
  by_cases h0 : foldName k = "CODE"
  · rw [if_pos h0] at h
    simp only [Option.map_eq_some'] at h
    obtain ⟨s, _, rfl⟩ := h
    refine ⟨?_, ?_, ?_, ?_, ?_, ?_, ?_, ?_, ?_⟩ <;> intro hne <;>
      first
      | rfl
      | exact absurd h0 hne
  rw [if_neg h0] at h
  by_cases h1 : foldName k = "CODEIN"
  · rw [if_pos h1] at h
    simp only [Option.map_eq_some'] at h
    obtain ⟨s, _, rfl⟩ := h
    refine ⟨?_, ?_, ?_, ?_, ?_, ?_, ?_, ?_, ?_⟩ <;> intro hne <;>
      first
      | rfl
      | exact absurd h1 hne
  rw [if_neg h1] at h
  by_cases h2 : foldName k = "NAME"
  · rw [if_pos h2] at h
    simp only [Option.map_eq_some'] at h
    obtain ⟨s, _, rfl⟩ := h
    refine ⟨?_, ?_, ?_, ?_, ?_, ?_, ?_, ?_, ?_⟩ <;> intro hne <;>
      first
      | rfl
      | exact absurd h2 hne
  rw [if_neg h2] at h
  by_cases h3 : foldName k = "HIGH"
  · rw [if_pos h3] at h
    simp only [Option.map_eq_some'] at h
    obtain ⟨s, _, rfl⟩ := h
    refine ⟨?_, ?_, ?_, ?_, ?_, ?_, ?_, ?_, ?_⟩ <;> intro hne <;>
      first
      | rfl
      | exact absurd h3 hne
  rw [if_neg h3] at h
  by_cases h4 : foldName k = "LOW"
  · rw [if_pos h4] at h
    simp only [Option.map_eq_some'] at h
    obtain ⟨s, _, rfl⟩ := h
    refine ⟨?_, ?_, ?_, ?_, ?_, ?_, ?_, ?_, ?_⟩ <;> intro hne <;>
      first
      | rfl
      | exact absurd h4 hne
  rw [if_neg h4] at h
  by_cases h5 : foldName k = "VARBID"
  · rw [if_pos h5] at h
    simp only [Option.map_eq_some'] at h
    obtain ⟨s, _, rfl⟩ := h
    refine ⟨?_, ?_, ?_, ?_, ?_, ?_, ?_, ?_, ?_⟩ <;> intro hne <;>
      first
      | rfl
      | exact absurd h5 hne
  rw [if_neg h5] at h
  by_cases h6 : foldName k = "PCTCHANGE"
  · rw [if_pos h6] at h
    simp only [Option.map_eq_some'] at h
    obtain ⟨s, _, rfl⟩ := h
    refine ⟨?_, ?_, ?_, ?_, ?_, ?_, ?_, ?_, ?_⟩ <;> intro hne <;>
      first
      | rfl
      | exact absurd h6 hne
  rw [if_neg h6] at h
  by_cases h7 : foldName k = "BID"
  · rw [if_pos h7] at h
    simp only [Option.map_eq_some'] at h
    obtain ⟨s, _, rfl⟩ := h
    refine ⟨?_, ?_, ?_, ?_, ?_, ?_, ?_, ?_, ?_⟩ <;> intro hne <;>
      first
      | rfl
      | exact absurd h7 hne
  rw [if_neg h7] at h
  by_cases h8 : foldName k = "ASK"
  · rw [if_pos h8] at h
    simp only [Option.map_eq_some'] at h
    obtain ⟨s, _, rfl⟩ := h
    refine ⟨?_, ?_, ?_, ?_, ?_, ?_, ?_, ?_, ?_⟩ <;> intro hne <;>
      first
      | rfl
      | exact absurd h8 hne
  rw [if_neg h8] at h
  by_cases h9 : foldName k = "TIMESTAMP"
  · rw [if_pos h9] at h
    simp only [Option.map_eq_some'] at h
    obtain ⟨s, _, rfl⟩ := h
    refine ⟨?_, ?_, ?_, ?_, ?_, ?_, ?_, ?_, ?_⟩ <;> intro _ <;> rfl
  rw [if_neg h9] at h
  by_cases h10 : foldName k = "CREATE_DATE"
  · rw [if_pos h10] at h
    simp only [Option.map_eq_some'] at h
    obtain ⟨s, _, rfl⟩ := h
    refine ⟨?_, ?_, ?_, ?_, ?_, ?_, ?_, ?_, ?_⟩ <;> intro _ <;> rfl
  rw [if_neg h10] at h
  simp only [Option.some.injEq] at h
  subst h
  refine ⟨?_, ?_, ?_, ?_, ?_, ?_, ?_, ?_, ?_⟩ <;> intro _ <;> rfl

/-- Decoding the members of the inner object leaves alone a field that no key
matches. -/
theorem setFields_keeps (get : USDBRL → String) (name : String)
    (hstep : ∀ e e1 k v, setField e k v = some e1 → foldName k ≠ name → get e1 = get e) :
    ∀ (members : List (String × json.Value)) (e e1 : USDBRL),
      setFields e members = some e1 →
      (∀ key ∈ members.map (fun p => p.1), foldName key ≠ name) → get e1 = get e := by
  intro members
  induction members with
  | nil =>
    intro e e1 h _
    simp only [setFields, Option.some.injEq] at h
    rw [h]
  | cons p rest ih =>
    intro e e1 h hk
    obtain ⟨k, v⟩ := p
    unfold setFields at h
    rcases hf : setField e k v with _ | e2
    · rw [hf] at h
      simp at h
    · rw [hf] at h
      dsimp only at h
      rw [ih e2 e1 h (fun key hkey => hk key (by simp at hkey ⊢; exact Or.inr hkey))]
      exact hstep e e2 k v hf (hk k (by simp))

/-- Decoding the members of the outer object leaves alone a field that no
decoded key matches. -/
theorem setMembers_keeps (get : USDBRL → String) (name : String)
    (hstep : ∀ e e1 k v, setField e k v = some e1 → foldName k ≠ name → get e1 = get e) :
    ∀ (members : List (String × json.Value)) (e e1 : ExchangeRateApiResponse),
      setMembers e members = some e1 →
      (∀ key ∈ decodedKeys members, foldName key ≠ name) →
      get e1.USDBRL = get e.USDBRL := by
  intro members
  induction members with
  | nil =>
    intro e e1 h _
    simp only [setMembers, Option.some.injEq] at h
    rw [h]
  | cons p rest ih =>
    intro e e1 h hk
    obtain ⟨k, v⟩ := p
    unfold setMembers at h
    rcases hf : setMember e k v with _ | e2
    · rw [hf] at h
      simp at h
    · rw [hf] at h
      dsimp only at h
      have hrest : ∀ key ∈ decodedKeys rest, foldName key ≠ name := by
        intro key hkey
        exact hk key (by unfold decodedKeys; exact List.mem_append_right _ hkey)
      have hhere : ∀ key ∈ memberKeys k v, foldName key ≠ name := by
        intro key hkey
        exact hk key (by unfold decodedKeys; exact List.mem_append_left _ hkey)
      rw [ih e2 e1 h hrest]
      unfold setMember at hf
      unfold memberKeys at hhere
      split_ifs at hf hhere with hu
      · cases v with
        | object fs =>
          dsimp only at hf hhere
          simp only [Option.map_eq_some'] at hf
          obtain ⟨u, hu1, rfl⟩ := hf
          exact setFields_keeps get name hstep fs e.USDBRL u hu1 hhere
        | null =>
          simp only [Option.some.injEq] at hf
          rw [hf]
        | bool b => simp at hf
        | number lit => simp at hf
        | string s => simp at hf
        | array elems => simp at hf
      · simp only [Option.some.injEq] at hf
        rw [hf]

/-- A field whose tag the body does not hold is the empty string after
`json.Unmarshal`. -/
theorem unmarshal_left_out (get : USDBRL → String) (name tag : String)
    (hstep : ∀ e e1 k v, setField e k v = some e1 → foldName k ≠ name → get e1 = get e)
    (hname : foldName tag = name) (hzero : get ExchangeRateApiResponse.zero.USDBRL = "")
    (body : String) (e : ExchangeRateApiResponse)
    (hparse : Unmarshal body = some e) (hout : mentions body tag = false) :
    get e.USDBRL = "" := by
  unfold Unmarshal at hparse
  unfold mentions at hout
  rcases hp : json.parse body with _ | v
  · rw [hp] at hparse
    simp at hparse
  · rw [hp] at hparse hout
    cases v with
    | object members =>
      dsimp only at hparse hout
      rw [hname] at hout
      rw [setMembers_keeps get name hstep members _ e hparse, hzero]
      intro key hkey
      have := List.any_eq_false.mp hout key hkey
      simpa using this
    | null =>
      simp only [Option.some.injEq] at hparse
      rw [← hparse, hzero]
    | bool b => simp at hparse
    | number lit => simp at hparse
    | string s => simp at hparse
    | array elems => simp at hparse

/-- A body that parses makes `GetExchangeRate` return the parsed observation. -/
theorem fetch_of_parse_ok (w : World) (ctx : Context) (resp : Response) (payload : String)
    (e : ExchangeRateApiResponse)
    (hreq : w.newRequest = none)
    (hdo : w.roundTrip (WithTimeout ctx w.nowFetch exchangeRateApiRequestTimeoutDuration) =
      Except.ok resp)
    (hbody : resp.Body = Except.ok payload) (hparse : Unmarshal payload = some e) :
    (GetExchangeRate w ctx).1 = Except.ok e := by
  unfold GetExchangeRate
  simp only [hreq, hdo, hbody, hparse]

/-- C7, amended: for every provider response body that `GetExchangeRate`
accepts, the row the handler persists in a table with the program's schema
holds no `NULL`: each of the nine string columns holds the text of its own
parsed field, and that text is the empty string whenever the body holds no
key for the field. -/
theorem C7_persisted_row_not_null (w : World) (db : Store) (rw : ResponseWriter)
    (ctx : Context) (t : Table) (resp : Response) (body : String)
    (e : ExchangeRateApiResponse)
    (hdb : db.exchanges = some t) (hcols : t.columns = createDatabase)
    (hreq : w.newRequest = none)
    (hdo : w.roundTrip (WithTimeout ctx w.nowFetch (200 * Millisecond)) = Except.ok resp)
    (hbody : resp.Body = Except.ok body)
    (hparse : Unmarshal body = some e)
    (hs : (SaveExchangeRateInDatabase w ctx db e).1 = none) :
    (GetExchangeRate w ctx).1 = Except.ok e ∧
    ∃ t1 row, (ExchangeHandler w db rw ctx).db.exchanges = some t1 ∧
      t1.rows = t.rows ++ [row] ∧
      (∀ v ∈ row, v ≠ SqlValue.null) ∧
      (columnOf t1.columns row "code" = some (SqlValue.text e.USDBRL.Code) ∧
        (mentions body "code" = false →
          columnOf t1.columns row "code" = some (SqlValue.text ""))) ∧
      (columnOf t1.columns row "codein" = some (SqlValue.text e.USDBRL.Codein) ∧
        (mentions body "codein" = false →
          columnOf t1.columns row "codein" = some (SqlValue.text ""))) ∧
      (columnOf t1.columns row "name" = some (SqlValue.text e.USDBRL.Name) ∧
        (mentions body "name" = false →
          columnOf t1.columns row "name" = some (SqlValue.text ""))) ∧
      (columnOf t1.columns row "high" = some (SqlValue.text e.USDBRL.High) ∧
        (mentions body "high" = false →
          columnOf t1.columns row "high" = some (SqlValue.text ""))) ∧
      (columnOf t1.columns row "low" = some (SqlValue.text e.USDBRL.Low) ∧
        (mentions body "low" = false →
          columnOf t1.columns row "low" = some (SqlValue.text ""))) ∧
      (columnOf t1.columns row "varBid" = some (SqlValue.text e.USDBRL.VarBid) ∧
        (mentions body "varBid" = false →
          columnOf t1.columns row "varBid" = some (SqlValue.text ""))) ∧
      (columnOf t1.columns row "pctChange" = some (SqlValue.text e.USDBRL.PctChange) ∧
        (mentions body "pctChange" = false →
          columnOf t1.columns row "pctChange" = some (SqlValue.text ""))) ∧
      (columnOf t1.columns row "bid" = some (SqlValue.text e.USDBRL.Bid) ∧
        (mentions body "bid" = false →
          columnOf t1.columns row "bid" = some (SqlValue.text ""))) ∧
      (columnOf t1.columns row "ask" = some (SqlValue.text e.USDBRL.Ask) ∧
        (mentions body "ask" = false →
          columnOf t1.columns row "ask" = some (SqlValue.text ""))) := by
  have hfetch := fetch_of_parse_ok w ctx resp body e hreq hdo hbody hparse
  refine ⟨hfetch, ?_⟩
  obtain ⟨t0, ht0, hsave⟩ := save_ok_db w ctx db e hs
  rw [hdb] at ht0
  cases ht0
  rw [handler_of_saved w db rw ctx e hfetch hs]
  dsimp only
  rw [hsave]
  refine ⟨_, _, rfl, rfl, ?_⟩
  dsimp only
  rw [newRow_createDatabase t hcols e w.currentTimestamp, hcols]
  refine ⟨?_, ⟨rfl, ?_⟩, ⟨rfl, ?_⟩, ⟨rfl, ?_⟩, ⟨rfl, ?_⟩, ⟨rfl, ?_⟩, ⟨rfl, ?_⟩, ⟨rfl, ?_⟩,
    ⟨rfl, ?_⟩, ⟨rfl, ?_⟩⟩
  · intro v hv
    simp only [List.mem_cons, List.mem_singleton, List.not_mem_nil, or_false] at hv
    rcases hv with h | h | h | h | h | h | h | h | h | h | h <;> rw [h] <;> simp
  · intro hout
    have h := unmarshal_left_out (fun u => u.Code) "CODE" "code"
      (fun a b k v hf => (setField_keeps a b k v hf).1) (by decide) rfl body e hparse hout
    dsimp only at h
    rw [h]
    rfl
  · intro hout
    have h := unmarshal_left_out (fun u => u.Codein) "CODEIN" "codein"
      (fun a b k v hf => (setField_keeps a b k v hf).2.1) (by decide) rfl body e hparse hout
    dsimp only at h
    rw [h]
    rfl
  · intro hout
    have h := unmarshal_left_out (fun u => u.Name) "NAME" "name"
      (fun a b k v hf => (setField_keeps a b k v hf).2.2.1) (by decide) rfl body e hparse hout
    dsimp only at h
    rw [h]
    rfl
  · intro hout
    have h := unmarshal_left_out (fun u => u.High) "HIGH" "high"
      (fun a b k v hf => (setField_keeps a b k v hf).2.2.2.1) (by decide) rfl body e hparse hout
    dsimp only at h
    rw [h]
    rfl
  · intro hout
    have h := unmarshal_left_out (fun u => u.Low) "LOW" "low"
      (fun a b k v hf => (setField_keeps a b k v hf).2.2.2.2.1) (by decide) rfl body e hparse
      hout
    dsimp only at h
    rw [h]
    rfl
  · intro hout
    have h := unmarshal_left_out (fun u => u.VarBid) "VARBID" "varBid"
      (fun a b k v hf => (setField_keeps a b k v hf).2.2.2.2.2.1) (by decide) rfl body e hparse
      hout
    dsimp only at h
    rw [h]
    rfl
  · intro hout
    have h := unmarshal_left_out (fun u => u.PctChange) "PCTCHANGE" "pctChange"
      (fun a b k v hf => (setField_keeps a b k v hf).2.2.2.2.2.2.1) (by decide) rfl body e
      hparse hout
    dsimp only at h
    rw [h]
    rfl
  · intro hout
    have h := unmarshal_left_out (fun u => u.Bid) "BID" "bid"
      (fun a b k v hf => (setField_keeps a b k v hf).2.2.2.2.2.2.2.1) (by decide) rfl body e
      hparse hout
    dsimp only at h
    rw [h]
    rfl
  · intro hout
    have h := unmarshal_left_out (fun u => u.Ask) "ASK" "ask"
      (fun a b k v hf => (setField_keeps a b k v hf).2.2.2.2.2.2.2.2) (by decide) rfl body e
      hparse hout
    dsimp only at h
    rw [h]
    rfl

/-- C7, amended, at a body that holds code, codein, bid and ask and leaves the
other five fields out. -/
theorem C7_persisted_row_not_null_witness :
    Unmarshal payloadPartial = some observationPartial ∧
    mentions payloadPartial "name" = false ∧
    mentions payloadPartial "bid" = true ∧
    ∃ t1 row, (ExchangeHandler (calmWorld payloadPartial) emptyDb ResponseWriter.fresh
        Background).db.exchanges = some t1 ∧
      t1.rows = [] ++ [row] ∧
      (∀ v ∈ row, v ≠ SqlValue.null) ∧
      columnOf t1.columns row "code" = some (SqlValue.text "USD") ∧
      columnOf t1.columns row "codein" = some (SqlValue.text "BRL") ∧
      columnOf t1.columns row "name" = some (SqlValue.text "") ∧
      columnOf t1.columns row "bid" = some (SqlValue.text "5.43") ∧
      columnOf t1.columns row "ask" = some (SqlValue.text "5.44") :=
  ⟨by decide, by decide, by decide, by
    obtain ⟨_, t1, row, h1, h2, h3, hcode, hcodein, hname, _, _, _, _, hbid, hask⟩ :=
      C7_persisted_row_not_null (calmWorld payloadPartial) emptyDb ResponseWriter.fresh
        Background { columns := createDatabase, rows := [], sequence := 0 }
        { StatusCode := 200, Body := Except.ok payloadPartial } payloadPartial
        observationPartial (by rfl) (by rfl) (by rfl) (by rfl) (by rfl) (by decide) (by decide)
    exact ⟨t1, row, h1, h2, h3, hcode.1, hcodein.1, hname.2 (by decide), hbid.1, hask.1⟩⟩

end Server

/-- The deadline of a context derived by `context.WithTimeout`: the local
deadline when the parent has none, otherwise the earlier of the two. -/
theorem WithTimeout_deadline (parent : Context) (now : Time) (timeout : Duration) :
    (parent.deadline = none → (WithTimeout parent now timeout).deadline = some (now + timeout)) ∧
    (∀ d, parent.deadline = some d →
      (WithTimeout parent now timeout).deadline = some (min d (now + timeout))) := by
  unfold WithTimeout WithDeadline
  constructor
  · intro h
    rw [h]
  · intro d h
    rw [h]
    dsimp only
    split
    · rename_i hlt
      rw [h, min_eq_left (le_of_lt hlt)]
    · rename_i hge
      rw [min_eq_right (not_lt.mp hge)]

/-- The context derived by `context.WithTimeout` has as deadline the earlier
of the parent's and the local one. -/
theorem WithTimeout_earlier (parent : Context) (now : Time) (timeout : Duration) :
    WithTimeout parent now timeout
      = { deadline := some (earlier parent.deadline (now + timeout)) } := by
  obtain ⟨hnone, hsome⟩ := WithTimeout_deadline parent now timeout
  rcases hd : parent.deadline with _ | d
  · have h := hnone hd
    rcases hw : WithTimeout parent now timeout with ⟨dl⟩
    rw [hw] at h
    dsimp only at h
    rw [h]
    rfl
  · have h := hsome d hd
    rcases hw : WithTimeout parent now timeout with ⟨dl⟩
    rw [hw] at h
    dsimp only at h
    rw [h]
    rfl

namespace Server

/-- Every call `GetExchangeRate` makes is the one request to the provider,
under the context derived with the 200 ms timeout. -/
theorem fetch_calls (w : World) (ctx : Context) (c : Call)
    (hc : c ∈ (GetExchangeRate w ctx).2) :
    c = Call.httpDo (WithTimeout ctx w.nowFetch exchangeRateApiRequestTimeoutDuration)
      "GET" exchangeRateApiUrl := by
  revert hc
  unfold GetExchangeRate
  dsimp only
  rcases w.newRequest with _ | e1
  · dsimp only
    rcases w.roundTrip (WithTimeout ctx w.nowFetch exchangeRateApiRequestTimeoutDuration)
      with e2 | resp
    · simp
    · dsimp only
      rcases resp.Body with e3 | body
      · simp
      · dsimp only
        rcases Unmarshal body with _ | e
        · simp
        · simp
  · simp

/-- Every call `SaveExchangeRateInDatabase` makes is made under the context
derived with the 10 ms timeout from the context it is given. -/
theorem save_calls (w : World) (ctx : Context) (db : Store) (e : ExchangeRateApiResponse)
    (c : Call) (hc : c ∈ (SaveExchangeRateInDatabase w ctx db e).2.2) :
    c = Call.prepareContext
        (WithTimeout ctx w.nowPersist exchangeRateDBTransactionTimeoutDuration) insertColumns ∨
    c = Call.execContext
        (WithTimeout ctx w.nowPersist exchangeRateDBTransactionTimeoutDuration)
        (insertArgs e) := by
  revert hc
  unfold SaveExchangeRateInDatabase
  dsimp only
  rcases w.prepare (WithTimeout ctx w.nowPersist exchangeRateDBTransactionTimeoutDuration)
    with _ | e1
  · dsimp only
    rcases prepareInsert db insertColumns with e2 | t
    · dsimp only
      intro hc
      simp only [List.mem_cons, List.mem_singleton, List.not_mem_nil, or_false] at hc
      exact Or.inl hc
    · dsimp only
      rcases w.exec (WithTimeout ctx w.nowPersist exchangeRateDBTransactionTimeoutDuration)
        with _ | e3
      · dsimp only
        rcases execInsert t insertColumns (insertArgs e) w.currentTimestamp with e4 | t1
        · dsimp only
          intro hc
          simp only [List.mem_cons, List.mem_singleton, List.not_mem_nil, or_false] at hc
          exact hc
        · dsimp only
          intro hc
          simp only [List.mem_cons, List.mem_singleton, List.not_mem_nil, or_false] at hc
          exact hc
      · dsimp only
        intro hc
        simp only [List.mem_cons, List.mem_singleton, List.not_mem_nil, or_false] at hc
        exact hc
  · dsimp only
    intro hc
    simp only [List.mem_cons, List.mem_singleton, List.not_mem_nil, or_false] at hc
    exact Or.inl hc

/-- The calls of the handler are those of `GetExchangeRate` followed, when it
succeeds, by those of `SaveExchangeRateInDatabase` on the request context. -/
theorem handler_calls (w : World) (db : Store) (rw : ResponseWriter) (ctx : Context)
    (c : Call) (hc : c ∈ (ExchangeHandler w db rw ctx).calls) :
    c ∈ (GetExchangeRate w ctx).2 ∨
    ∃ e, c ∈ (SaveExchangeRateInDatabase w ctx db e).2.2 := by
  rcases hg : (GetExchangeRate w ctx).1 with err | e
  · rw [handler_of_fetch_error w db rw ctx err hg] at hc
    exact Or.inl hc
  · rcases hs : (SaveExchangeRateInDatabase w ctx db e).1 with _ | err
    · rw [handler_of_saved w db rw ctx e hg hs] at hc
      rcases List.mem_append.mp hc with h | h
      · exact Or.inl h
      · exact Or.inr ⟨e, h⟩
    · rw [handler_of_save_error w db rw ctx e err hg hs] at hc
      rcases List.mem_append.mp hc with h | h
      · exact Or.inl h
      · exact Or.inr ⟨e, h⟩

/-- C8: for every inherited request deadline (possibly none) and every start
time, the provider call of `GetExchangeRate` is answered under the context
whose deadline is the earlier of the inherited one and the fetch start time
plus 200 ms, and the prepare and the run of the insert in
`SaveExchangeRateInDatabase` are answered under the context whose deadline is
the earlier of the inherited one and the persist start time plus 10 ms: what
the world answers under exactly those contexts decides the outcome of each
step. The local timeout never extends or replaces the inherited deadline, and
the fetch deadline plays no part in the persist deadline. -/
theorem C8_deadline_layering (w : World) (db : Store) (rw : ResponseWriter) (ctx : Context) :
    (w.newRequest = none → ∀ err,
      w.roundTrip { deadline := some (earlier ctx.deadline (w.nowFetch + 200 * Millisecond)) }
        = Except.error err →
      (GetExchangeRate w ctx).1 = Except.error err ∧
      (ExchangeHandler w db rw ctx).rw = Error w rw err StatusInternalServerError) ∧
    (w.newRequest = none → ∀ resp body e,
      w.roundTrip { deadline := some (earlier ctx.deadline (w.nowFetch + 200 * Millisecond)) }
        = Except.ok resp →
      resp.Body = Except.ok body → Unmarshal body = some e →
      (GetExchangeRate w ctx).1 = Except.ok e) ∧
    (∀ e err, (GetExchangeRate w ctx).1 = Except.ok e →
      w.prepare { deadline := some (earlier ctx.deadline (w.nowPersist + 10 * Millisecond)) }
        = some err →
      (SaveExchangeRateInDatabase w ctx db e).1 = some err ∧
      (ExchangeHandler w db rw ctx).rw = Error w rw err StatusInternalServerError ∧
      (ExchangeHandler w db rw ctx).db = db) ∧
    (∀ e t err, (GetExchangeRate w ctx).1 = Except.ok e →
      w.prepare { deadline := some (earlier ctx.deadline (w.nowPersist + 10 * Millisecond)) }
        = none →
      prepareInsert db insertColumns = Except.ok t →
      w.exec { deadline := some (earlier ctx.deadline (w.nowPersist + 10 * Millisecond)) }
        = some err →
      (SaveExchangeRateInDatabase w ctx db e).1 = some err ∧
      (ExchangeHandler w db rw ctx).rw = Error w rw err StatusInternalServerError ∧
      (ExchangeHandler w db rw ctx).db = db) ∧
    (∀ e t t1, (GetExchangeRate w ctx).1 = Except.ok e →
      w.prepare { deadline := some (earlier ctx.deadline (w.nowPersist + 10 * Millisecond)) }
        = none →
      prepareInsert db insertColumns = Except.ok t →
      w.exec { deadline := some (earlier ctx.deadline (w.nowPersist + 10 * Millisecond)) }
        = none →
      execInsert t insertColumns (insertArgs e) w.currentTimestamp = Except.ok t1 →
      (SaveExchangeRateInDatabase w ctx db e).1 = none ∧
      (ExchangeHandler w db rw ctx).db = { exchanges := some t1 }) ∧
    (ctx.deadline = none →
      earlier ctx.deadline (w.nowFetch + 200 * Millisecond) = w.nowFetch + 200 * Millisecond ∧
      earlier ctx.deadline (w.nowPersist + 10 * Millisecond)
        = w.nowPersist + 10 * Millisecond) ∧
    (∀ d, ctx.deadline = some d →
      earlier ctx.deadline (w.nowFetch + 200 * Millisecond)
        = min d (w.nowFetch + 200 * Millisecond) ∧
      earlier ctx.deadline (w.nowPersist + 10 * Millisecond)
        = min d (w.nowPersist + 10 * Millisecond) ∧
      earlier ctx.deadline (w.nowFetch + 200 * Millisecond) ≤ d ∧
      earlier ctx.deadline (w.nowPersist + 10 * Millisecond) ≤ d) ∧
    (∀ c, c ∈ (ExchangeHandler w db rw ctx).calls →
      match c with
      | Call.httpDo used _ _ =>
        used.deadline = some (earlier ctx.deadline (w.nowFetch + 200 * Millisecond))
      | Call.prepareContext used _ =>
        used.deadline = some (earlier ctx.deadline (w.nowPersist + 10 * Millisecond))
      | Call.execContext used _ =>
        used.deadline = some (earlier ctx.deadline (w.nowPersist + 10 * Millisecond))) := by
  have hF : WithTimeout ctx w.nowFetch exchangeRateApiRequestTimeoutDuration
      = { deadline := some (earlier ctx.deadline (w.nowFetch + 200 * Millisecond)) } :=
    WithTimeout_earlier ctx w.nowFetch (200 * Millisecond)
  have hP : WithTimeout ctx w.nowPersist exchangeRateDBTransactionTimeoutDuration
      = { deadline := some (earlier ctx.deadline (w.nowPersist + 10 * Millisecond)) } :=
    WithTimeout_earlier ctx w.nowPersist (10 * Millisecond)
  refine ⟨?_, ?_, ?_, ?_, ?_, ?_, ?_, ?_⟩
  · intro hreq err hdo
    have hg : (GetExchangeRate w ctx).1 = Except.error err := by
      unfold GetExchangeRate
      simp only [hreq, hF, hdo]
    exact ⟨hg, by rw [handler_of_fetch_error w db rw ctx err hg]⟩
  · intro hreq resp body e hdo hbody hparse
    exact fetch_of_parse_ok w ctx resp body e hreq (by rw [hF]; exact hdo) hbody hparse
  · intro e err hg hprep
    have hs : (SaveExchangeRateInDatabase w ctx db e).1 = some err := by
      unfold SaveExchangeRateInDatabase
      simp only [hP, hprep]
    refine ⟨hs, ?_, ?_⟩
    · rw [handler_of_save_error w db rw ctx e err hg hs]
    · rw [handler_of_save_error w db rw ctx e err hg hs]
      exact save_error_db w ctx db e err hs
  · intro e t err hg hprep ht hexec
    have hs : (SaveExchangeRateInDatabase w ctx db e).1 = some err := by
      unfold SaveExchangeRateInDatabase
      simp only [hP, hprep, ht, hexec]
    refine ⟨hs, ?_, ?_⟩
    · rw [handler_of_save_error w db rw ctx e err hg hs]
    · rw [handler_of_save_error w db rw ctx e err hg hs]
      exact save_error_db w ctx db e err hs
  · intro e t t1 hg hprep ht hexec hins
    have hs : SaveExchangeRateInDatabase w ctx db e
        = (none, { exchanges := some t1 },
            [Call.prepareContext
              { deadline := some (earlier ctx.deadline (w.nowPersist + 10 * Millisecond)) }
              insertColumns,
             Call.execContext
              { deadline := some (earlier ctx.deadline (w.nowPersist + 10 * Millisecond)) }
              (insertArgs e)]) := by
      unfold SaveExchangeRateInDatabase
      simp only [hP, hprep, ht, hexec, hins]
    have hs1 : (SaveExchangeRateInDatabase w ctx db e).1 = none := by rw [hs]
    refine ⟨hs1, ?_⟩
    rw [handler_of_saved w db rw ctx e hg hs1]
    dsimp only
    rw [hs]
  · intro hnone
    rw [hnone]
    exact ⟨rfl, rfl⟩
  · intro d hd
    rw [hd]
    exact ⟨rfl, rfl, min_le_left _ _, min_le_left _ _⟩
  · intro c hc
    rcases handler_calls w db rw ctx c hc with h | ⟨e, h⟩
    · have h0 := fetch_calls w ctx c h
      subst h0
      dsimp only
      rw [hF]
    · rcases save_calls w ctx db e c h with h1 | h1
      · subst h1
        dsimp only
        rw [hP]
      · subst h1
        dsimp only
        rw [hP]

/-- C8 at a request whose inherited deadline is at 1000 ms, in a world that
fails the provider call unless it is made under the deadline 200 ms and the
insert unless it is prepared and run under the deadline 205 ms (the persist
step starts at 195 ms): the fetch and the persist step both succeed. -/
theorem C8_deadline_layering_witness :
    earlier (some (1000 * Millisecond)) (0 + 200 * Millisecond) = 200000000 ∧
    earlier (some (1000 * Millisecond)) (195 * Millisecond + 10 * Millisecond) = 205000000 ∧
    deadlineProbeWorld.roundTrip { deadline := some (1000 * Millisecond) }
      = Except.error "provider called under another deadline" ∧
    deadlineProbeWorld.prepare { deadline := some 200000000 }
      = some "prepared under another deadline" ∧
    (GetExchangeRate deadlineProbeWorld { deadline := some (1000 * Millisecond) }).1
      = Except.ok observation543 ∧
    (SaveExchangeRateInDatabase deadlineProbeWorld { deadline := some (1000 * Millisecond) }
      emptyDb observation543).1 = none ∧
    (ExchangeHandler deadlineProbeWorld emptyDb ResponseWriter.fresh
      { deadline := some (1000 * Millisecond) }).db = { exchanges := some seededTable } :=
  ⟨by decide, by decide, by rfl, by rfl,
    (C8_deadline_layering deadlineProbeWorld emptyDb ResponseWriter.fresh
      { deadline := some (1000 * Millisecond) }).2.1 (by rfl)
      { StatusCode := 200, Body := Except.ok payload543 } payload543 observation543
      (by rfl) (by rfl) (by decide),
    (C8_deadline_layering deadlineProbeWorld emptyDb ResponseWriter.fresh
      { deadline := some (1000 * Millisecond) }).2.2.2.2.1 observation543
      { columns := createDatabase, rows := [], sequence := 0 } seededTable
      (by rfl) (by rfl) (by rfl) (by rfl) (by rfl)⟩

/-- C9: with no driver failure, `DatabaseFactory` on a store that already has
the table returns the store unchanged, definition and rows alike, and no
error; on a store without the table it creates the empty table with the
fixed eleven columns; running it again on its own result changes nothing. -/
theorem C9_schema_idempotent (w : World) (db : Store)
    (hopen : w.sqlOpen = none) (hexec : w.execSchema = none) :
    (∀ t, db.exchanges = some t → DatabaseFactory w db = Except.ok db) ∧
    (db.exchanges = none → DatabaseFactory w db =
      Except.ok { exchanges := some { columns := createDatabase, rows := [], sequence := 0 } }) ∧
    (∀ db1, DatabaseFactory w db = Except.ok db1 → DatabaseFactory w db1 = Except.ok db1) ∧
    createTableIfNotExists createDatabase (createTableIfNotExists createDatabase db)
      = createTableIfNotExists createDatabase db ∧
    createDatabase.map (fun c => c.name) =
      ["id", "code", "codein", "name", "high", "low", "varBid", "pctChange", "bid", "ask",
       "create_date"] ∧
    createDatabase.length = 11 := by
  have hF : ∀ s, DatabaseFactory w s = Except.ok (createTableIfNotExists createDatabase s) := by
    intro s
    unfold DatabaseFactory
    rw [hopen, hexec]
  have hI : ∀ s, createTableIfNotExists createDatabase (createTableIfNotExists createDatabase s)
      = createTableIfNotExists createDatabase s := by
    intro s
    unfold createTableIfNotExists
    rcases h : s.exchanges with _ | t
    · rfl
    · simp only [h]
  refine ⟨?_, ?_, ?_, hI db, by decide, by decide⟩
  · intro t ht
    rw [hF]
    unfold createTableIfNotExists
    rw [ht]
  · intro hnone
    rw [hF]
    unfold createTableIfNotExists
    rw [hnone]
  · intro db1 h1
    rw [hF] at h1
    simp only [Except.ok.injEq] at h1
    rw [hF, ← h1, hI]

/-- C9 at a store that holds one row: the second initialisation returns it
unchanged. -/
theorem C9_schema_idempotent_witness :
    (calmWorld "").sqlOpen = none ∧ (calmWorld "").execSchema = none ∧
    rowCount seededDb = 1 ∧
    DatabaseFactory (calmWorld "") seededDb = Except.ok seededDb ∧
    DatabaseFactory (calmWorld "") { exchanges := none } = Except.ok emptyDb :=
  ⟨by rfl, by rfl, by decide,
    (C9_schema_idempotent (calmWorld "") seededDb (by rfl) (by rfl)).2.2.1 seededDb (by rfl),
    by rfl⟩

end Server

namespace Client

/-- Every call `GetExchangeRateValue` makes is the one request to the server. -/
theorem client_fetch_calls (w : World) (c : Call) (hc : c ∈ (GetExchangeRateValue w).2) :
    c = Call.httpDo (WithTimeout Background w.now internalExchangeRateApiUrlTimeoutDuration)
      "GET" internalExchangeRateApiUrl := by
  revert hc
  unfold GetExchangeRateValue
  dsimp only
  rcases w.newRequest with _ | e1
  · dsimp only
    rcases w.roundTrip (WithTimeout Background w.now internalExchangeRateApiUrlTimeoutDuration)
      with e2 | resp
    · simp
    · dsimp only
      rcases resp.Body with e3 | body
      · simp
      · simp
  · simp

/-- The client's `main` when `GetExchangeRateValue` returns an error. -/
theorem main_of_fetch_error (w : World) (fs : FileSystem) (err : GoError)
    (h : (GetExchangeRateValue w).1 = Except.error err) :
    main w fs = { panicked := some err, fs := fs, calls := (GetExchangeRateValue w).2 } := by
  unfold main
  rcases hg : GetExchangeRateValue w with ⟨r, calls⟩
  rw [hg] at h
  simp only at h
  subst h
  rfl

/-- The client's `main` when `GetExchangeRateValue` returns a value. -/
theorem main_of_fetched (w : World) (fs : FileSystem) (value : String)
    (h : (GetExchangeRateValue w).1 = Except.ok value) :
    main w fs =
      { panicked := (WriteExchangeRate w fs value).1, fs := (WriteExchangeRate w fs value).2.1,
        calls := (GetExchangeRateValue w).2 ++ (WriteExchangeRate w fs value).2.2 } := by
  unfold main
  rcases hg : GetExchangeRateValue w with ⟨r, calls⟩
  rw [hg] at h
  simp only at h
  subst h
  dsimp only
  rcases hw : WriteExchangeRate w fs value with ⟨r1, fs1, calls1⟩
  cases r1 <;> rfl

/-- `GetExchangeRateValue` returns the body of any response it can read,
whatever the status code. -/
theorem fetch_returns_body (w : World) (status : Nat) (body : String)
    (hreq : w.newRequest = none)
    (hdo : w.roundTrip (WithTimeout Background w.now internalExchangeRateApiUrlTimeoutDuration)
      = Except.ok { StatusCode := status, Body := Except.ok body }) :
    (GetExchangeRateValue w).1 = Except.ok body := by
  unfold GetExchangeRateValue
  simp only [hreq, hdo]

/-- `WriteExchangeRate` when creating and writing the file succeed. -/
theorem write_ok (w : World) (fs : FileSystem) (value : String)
    (hcreate : w.create = none) (hwrite : w.writeString = none) :
    WriteExchangeRate w fs value =
      (none, { cotacao := some ("Dólar: " ++ value) },
        [Call.create, Call.writeString ("Dólar: " ++ value)]) := by
  unfold WriteExchangeRate
  simp only [hcreate, hwrite]

/-- C6: if `GetExchangeRateValue` returns an error, `main` panics with it,
`WriteExchangeRate` is not called (the file is neither created nor written)
and the destination file, absent or present with any content, is as it was. -/
theorem C6_fetch_error_leaves_file (w : World) (fs : FileSystem) (err : GoError)
    (h : (GetExchangeRateValue w).1 = Except.error err) :
    (main w fs).panicked = some err ∧
    (main w fs).fs = fs ∧
    Call.create ∉ (main w fs).calls ∧
    ∀ s, Call.writeString s ∉ (main w fs).calls := by
  rw [main_of_fetch_error w fs err h]
  refine ⟨rfl, rfl, ?_, ?_⟩
  · intro hc
    have := client_fetch_calls w _ hc
    simp at this
  · intro s hc
    have := client_fetch_calls w _ hc
    simp at this

/-- C6 at a server that cannot be reached and a file that exists. -/
theorem C6_fetch_error_leaves_file_witness :
    (GetExchangeRateValue (unreachableServer "connection refused")).1
      = Except.error "connection refused" ∧
    (main (unreachableServer "connection refused") { cotacao := some "Dólar: 5.40" }).panicked
      = some "connection refused" ∧
    (main (unreachableServer "connection refused") { cotacao := some "Dólar: 5.40" }).fs
      = { cotacao := some "Dólar: 5.40" } ∧
    Call.create ∉
      (main (unreachableServer "connection refused") { cotacao := some "Dólar: 5.40" }).calls ∧
    ∀ s, Call.writeString s ∉
      (main (unreachableServer "connection refused") { cotacao := some "Dólar: 5.40" }).calls :=
  ⟨by rfl, C6_fetch_error_leaves_file (unreachableServer "connection refused")
    { cotacao := some "Dólar: 5.40" } "connection refused" (by rfl)⟩

/-- The client's `main` on a response whose body can be read, whatever the
status code. -/
theorem main_of_response (w : World) (fs : FileSystem) (status : Nat) (body : String)
    (hreq : w.newRequest = none)
    (hdo : w.roundTrip (WithTimeout Background w.now (300 * Millisecond))
      = Except.ok { StatusCode := status, Body := Except.ok body }) :
    (GetExchangeRateValue w).1 = Except.ok body ∧
    (main w fs).panicked = (WriteExchangeRate w fs body).1 ∧
    (main w fs).fs = (WriteExchangeRate w fs body).2.1 ∧
    Call.create ∈ (main w fs).calls ∧
    (w.create = none → w.writeString = none →
      (main w fs).panicked = none ∧ (main w fs).fs.cotacao = some ("Dólar: " ++ body)) := by
  have hb := fetch_returns_body w status body hreq hdo
  rw [main_of_fetched w fs body hb]
  refine ⟨hb, rfl, rfl, ?_, ?_⟩
  · dsimp only
    apply List.mem_append_right
    unfold WriteExchangeRate
    rcases w.create with _ | e1
    · dsimp only
      rcases w.writeString with _ | e2 <;> simp
    · simp
  · intro hcreate hwrite
    rw [write_ok w fs body hcreate hwrite]
    exact ⟨rfl, rfl⟩

/-- C10, counterexample: against the 500 response the server's handler writes
when its fetch step fails with the error text `context deadline exceeded`,
the client does not abort, but the file it leaves is not `Dólar: ` followed
by that error text: the text is followed by a newline. -/
theorem C10_counterexample_error_newline :
    (Server.GetExchangeRate (Server.unreachableWorld "context deadline exceeded")
      Background).1 = Except.error "context deadline exceeded" ∧
    (received (Server.ExchangeHandler (Server.unreachableWorld "context deadline exceeded")
      Server.emptyDb Server.ResponseWriter.fresh Background).rw).StatusCode = 500 ∧
    (main (againstServer (Server.ExchangeHandler
      (Server.unreachableWorld "context deadline exceeded")
      Server.emptyDb Server.ResponseWriter.fresh Background).rw)
      { cotacao := some "Dólar: 5.40" }).panicked = none ∧
    (main (againstServer (Server.ExchangeHandler
      (Server.unreachableWorld "context deadline exceeded")
      Server.emptyDb Server.ResponseWriter.fresh Background).rw)
      { cotacao := some "Dólar: 5.40" }).fs.cotacao
      ≠ some "Dólar: context deadline exceeded" ∧
    (main (againstServer (Server.ExchangeHandler
      (Server.unreachableWorld "context deadline exceeded")
      Server.emptyDb Server.ResponseWriter.fresh Background).rw)
      { cotacao := some "Dólar: 5.40" }).fs.cotacao
      = some "Dólar: context deadline exceeded\n" := by
  refine ⟨by rfl, by decide, by decide, by decide, by decide⟩

/-- C10, amended: the client never inspects the status code. For every
response whose body can be read, whatever its status code (500 included),
`GetExchangeRateValue` returns the body with no error, `main` goes on to
`WriteExchangeRate` with that body, and when creating and writing the file
succeed the process does not panic and the file holds `Dólar: ` followed by
the body. For the 500 response the server's handler writes when its fetch,
parse or persist step fails with the error text `err`, that body is `err`
followed by a newline, so the file holds `Dólar: `, `err` and a newline. -/
theorem C10_status_not_inspected (w : World) (fs : FileSystem)
    (hreq : w.newRequest = none) :
    (∀ status body,
      w.roundTrip (WithTimeout Background w.now (300 * Millisecond))
        = Except.ok { StatusCode := status, Body := Except.ok body } →
      (GetExchangeRateValue w).1 = Except.ok body ∧
      (main w fs).panicked = (WriteExchangeRate w fs body).1 ∧
      (main w fs).fs = (WriteExchangeRate w fs body).2.1 ∧
      Call.create ∈ (main w fs).calls ∧
      (w.create = none → w.writeString = none →
        (main w fs).panicked = none ∧
        (main w fs).fs.cotacao = some ("Dólar: " ++ body))) ∧
    (∀ (sw : Server.World) (db : Server.Store) (ctx : Context) (err : GoError),
      ((Server.GetExchangeRate sw ctx).1 = Except.error err ∨
        ∃ e, (Server.GetExchangeRate sw ctx).1 = Except.ok e ∧
          (Server.SaveExchangeRateInDatabase sw ctx db e).1 = some err) →
      sw.write 0 = none →
      w.roundTrip (WithTimeout Background w.now (300 * Millisecond)) = Except.ok
        (received (Server.ExchangeHandler sw db Server.ResponseWriter.fresh ctx).rw) →
      (received (Server.ExchangeHandler sw db Server.ResponseWriter.fresh ctx).rw).StatusCode
        = 500 ∧
      (GetExchangeRateValue w).1 = Except.ok (err ++ "\n") ∧
      (w.create = none → w.writeString = none →
        (main w fs).panicked = none ∧
        (main w fs).fs.cotacao = some ("Dólar: " ++ (err ++ "\n")))) := by
  refine ⟨fun status body hdo => main_of_response w fs status body hreq hdo, ?_⟩
  intro sw db ctx err hfail hwrite hdo
  have hresp := Server.handler_error_response sw db ctx err hfail hwrite
  have hrec : received (Server.ExchangeHandler sw db Server.ResponseWriter.fresh ctx).rw
      = { StatusCode := 500, Body := Except.ok (err ++ "\n") } := by
    unfold received
    rw [hresp.1, hresp.2]
    rfl
  rw [hrec] at hdo ⊢
  obtain ⟨h1, _, _, _, h5⟩ := main_of_response w fs 500 (err ++ "\n") hreq hdo
  exact ⟨rfl, h1, h5⟩

/-- C10, amended, at the 500 response the server's handler writes when its
fetch step fails with `context deadline exceeded`. -/
theorem C10_status_not_inspected_witness :
    (againstServer (Server.ExchangeHandler (Server.unreachableWorld "context deadline exceeded")
      Server.emptyDb Server.ResponseWriter.fresh Background).rw).newRequest = none ∧
    (received (Server.ExchangeHandler (Server.unreachableWorld "context deadline exceeded")
      Server.emptyDb Server.ResponseWriter.fresh Background).rw).StatusCode = 500 ∧
    (GetExchangeRateValue (againstServer (Server.ExchangeHandler
      (Server.unreachableWorld "context deadline exceeded")
      Server.emptyDb Server.ResponseWriter.fresh Background).rw)).1
      = Except.ok ("context deadline exceeded" ++ "\n") ∧
    (main (againstServer (Server.ExchangeHandler
      (Server.unreachableWorld "context deadline exceeded")
      Server.emptyDb Server.ResponseWriter.fresh Background).rw)
      { cotacao := some "Dólar: 5.40" }).panicked = none ∧
    (main (againstServer (Server.ExchangeHandler
      (Server.unreachableWorld "context deadline exceeded")
      Server.emptyDb Server.ResponseWriter.fresh Background).rw)
      { cotacao := some "Dólar: 5.40" }).fs.cotacao
      = some ("Dólar: " ++ ("context deadline exceeded" ++ "\n")) :=
  ⟨by rfl, by
    obtain ⟨h1, h2, h3⟩ := (C10_status_not_inspected (againstServer (Server.ExchangeHandler
      (Server.unreachableWorld "context deadline exceeded")
      Server.emptyDb Server.ResponseWriter.fresh Background).rw)
      { cotacao := some "Dólar: 5.40" } (by rfl)).2
      (Server.unreachableWorld "context deadline exceeded") Server.emptyDb Background
      "context deadline exceeded" (Or.inl (by rfl)) (by rfl) (by rfl)
    exact ⟨h1, h2, h3 (by rfl) (by rfl)⟩⟩

/-- C2, counterexample: against a server whose handler succeeded with the bid
5.50, the client leaves a file whose content is not `Dólar: 5.50`: the value
is inside double quotes and followed by a newline. -/
theorem C2_counterexample_quoted_value :
    ((Server.GetExchangeRate (Server.calmWorld Server.payload550) Background).1.toOption.map
      (fun e => e.USDBRL.Bid)) = some "5.50" ∧
    (Server.ExchangeHandler (Server.calmWorld Server.payload550) Server.emptyDb
      Server.ResponseWriter.fresh Background).rw.status = some 200 ∧
    (main (againstServer (Server.ExchangeHandler (Server.calmWorld Server.payload550)
      Server.emptyDb Server.ResponseWriter.fresh Background).rw)
      { cotacao := some "Dólar: 5.40" }).fs.cotacao ≠ some "Dólar: 5.50" ∧
    (main (againstServer (Server.ExchangeHandler (Server.calmWorld Server.payload550)
      Server.emptyDb Server.ResponseWriter.fresh Background).rw)
      { cotacao := some "Dólar: 5.40" }).fs.cotacao = some "Dólar: \"5.50\"\n" := by
  refine ⟨by decide, by decide, by decide, by decide⟩

/-- C2, amended: for every bid and every prior content of the destination
file, when the server's handler succeeds with an observation and the client
runs against that response with its file operations succeeding, the file's
sole content afterwards is `Dólar: ` followed by the response body, that is
the JSON string encoding of the bid and a newline; nothing of the prior
content is left. -/
theorem C2_end_to_end (sw : Server.World) (db : Server.Store) (ctx : Context)
    (e : Server.ExchangeRateApiResponse) (cw : World) (fs : FileSystem)
    (hfetch : (Server.GetExchangeRate sw ctx).1 = Except.ok e)
    (hsave : (Server.SaveExchangeRateInDatabase sw ctx db e).1 = none)
    (hwrite : sw.write 0 = none)
    (hreq : cw.newRequest = none)
    (hdo : cw.roundTrip (WithTimeout Background cw.now (300 * Millisecond)) = Except.ok
      (received (Server.ExchangeHandler sw db Server.ResponseWriter.fresh ctx).rw))
    (hcreate : cw.create = none) (hwriteString : cw.writeString = none) :
    (main cw fs).panicked = none ∧
    (main cw fs).fs.cotacao
      = some ("Dólar: " ++ (json.encodeString e.USDBRL.Bid ++ "\n")) := by
  have hresp := Server.handler_success_response sw db ctx e hfetch hsave hwrite
  have hb : (GetExchangeRateValue cw).1
      = Except.ok (json.encodeString e.USDBRL.Bid ++ "\n") := by
    apply fetch_returns_body cw 200 _ hreq
    rw [show internalExchangeRateApiUrlTimeoutDuration = 300 * Millisecond from rfl, hdo]
    unfold received
    rw [hresp.1, hresp.2]
    rfl
  rw [main_of_fetched cw fs _ hb, write_ok cw fs _ hcreate hwriteString]
  exact ⟨rfl, rfl⟩

/-- C2, amended, at the bid 5.50 and a file with prior content. -/
theorem C2_end_to_end_witness :
    (Server.GetExchangeRate (Server.calmWorld Server.payload550) Background).1
      = Except.ok Server.observation550 ∧
    (Server.SaveExchangeRateInDatabase (Server.calmWorld Server.payload550) Background
      Server.emptyDb Server.observation550).1 = none ∧
    (main (againstServer (Server.ExchangeHandler (Server.calmWorld Server.payload550)
      Server.emptyDb Server.ResponseWriter.fresh Background).rw)
      { cotacao := some "Dólar: 5.40" }).panicked = none ∧
    (main (againstServer (Server.ExchangeHandler (Server.calmWorld Server.payload550)
      Server.emptyDb Server.ResponseWriter.fresh Background).rw)
      { cotacao := some "Dólar: 5.40" }).fs.cotacao
      = some ("Dólar: " ++ (json.encodeString "5.50" ++ "\n")) :=
  ⟨by rfl, by decide,
    C2_end_to_end (Server.calmWorld Server.payload550) Server.emptyDb Background
      Server.observation550
      (againstServer (Server.ExchangeHandler (Server.calmWorld Server.payload550)
        Server.emptyDb Server.ResponseWriter.fresh Background).rw)
      { cotacao := some "Dólar: 5.40" }
      (by rfl) (by decide) (by rfl) (by rfl) (by rfl) (by rfl) (by rfl)⟩

end Client
